import Mathlib

set_option maxRecDepth 10000

/-!
Verification development for the LOAS repository core:
the YAML-to-artifact emitters of `src/main.py` (`Script.to_osascript`,
`Script.to_javascript`, `Script.to_swift_wrapper`,
`Script.to_swift_javascript_wrapper`, `validate_yaml_files`) and the
identifier tooling of `src/add_guids.py` (`generate_guids_for_yaml`,
`check_for_duplicate_guids`, `add_guids_to_yaml_files`).

Text is modelled at the character level: a file is a list of lines, a
line a `List Char`; this mirrors the Python code, whose regexes are all
`MULTILINE` and line-oriented.  The uuid7 generator is modelled as an
explicit supply (a list of candidate identifier strings): the Python
`get_guid` callable is an external randomness source, so the embedding
takes the produced strings as an input.  A run that exhausts the supply
returns `none` (the Python retry loop would keep calling the generator).
-/

/-- One line of a text file, as a character list. -/
abbrev Line := List Char

/-- The characters matched by `[ \t]` in the Python regexes. -/
def isSpTabC (c : Char) : Bool := c == ' ' || c == '\t'

/-- The characters stripped by Python `str.strip()` and matched by `\s`
(ASCII range). -/
def isPyWsC (c : Char) : Bool :=
  c == ' ' || c == '\t' || c == '\n' || c == '\r' || c == '\x0b' || c == '\x0c'

/-- ASCII lower-casing of one character, as Python `str.lower()` acts on
the ASCII range (the only characters the guid code ever lower-cases). -/
def lowChar (c : Char) : Char :=
  if 'A' ≤ c ∧ c ≤ 'Z' then Char.ofNat (c.toNat + 32) else c

/-- Lower-case a character list (Python `str.lower()`). -/
def lowL (l : Line) : Line := l.map lowChar

/-- Match a literal pattern case-insensitively at the head of a line,
returning the rest (the effect of a `(?i)` literal in the regexes). -/
def matchCI : List Char → Line → Option Line
  | [], l => some l
  | _ :: _, [] => none
  | p :: ps, c :: cs => if lowChar c = lowChar p then matchCI ps cs else none

/-- The character class `[a-f0-9]` under the `(?i)` flag. -/
def isHexC (c : Char) : Bool :=
  (decide ('0' ≤ c) && decide (c ≤ '9')) ||
  (decide ('a' ≤ c) && decide (c ≤ 'f')) ||
  (decide ('A' ≤ c) && decide (c ≤ 'F'))

/-- Consume exactly `n` hex characters (`[a-f0-9]{n}` with `(?i)`). -/
def takeHex : Nat → Line → Option Line
  | 0, l => some l
  | _ + 1, [] => none
  | n + 1, c :: cs => if isHexC c then takeHex n cs else none

/-- Consume a literal dash. -/
def chompDash : Line → Option Line
  | '-' :: cs => some cs
  | _ => none

/-- Consume an 8-4-4-4-12 hex uuid of any version (the extraction
pattern of `add_guids.py`), returning the rest of the line. -/
def chompUuid (l : Line) : Option Line :=
  (takeHex 8 l).bind fun a => (chompDash a).bind fun b =>
  (takeHex 4 b).bind fun c => (chompDash c).bind fun d =>
  (takeHex 4 d).bind fun e => (chompDash e).bind fun f =>
  (takeHex 4 f).bind fun g => (chompDash g).bind fun h =>
  takeHex 12 h

/-- `src/add_guids.py` extraction regex applied to one line:
`(?i)^[ \t]*guid:[ \t]*([a-f0-9]{8}-[a-f0-9]{4}-[a-f0-9]{4}-[a-f0-9]{4}-[a-f0-9]{12})[ \t]*$`,
returning the captured uuid lower-cased (the callers always lower-case
the captured group before using it). -/
def guidLineValue (l : Line) : Option Line :=
  match matchCI "guid:".data (l.dropWhile isSpTabC) with
  | none => none
  | some r =>
    let r2 := r.dropWhile isSpTabC
    match chompUuid r2 with
    | none => none
    | some rest => if rest.all isSpTabC then some (lowL (r2.take 36)) else none

/-- All well-formed identifiers of a file, in line order, lower-cased
(the `re.findall` loop at the top of `generate_guids_for_yaml`). -/
def extractGuids (lines : List Line) : List Line :=
  lines.filterMap guidLineValue

/-- The variant class `[89aAbB]` of the fill pattern. -/
def v7Variant (c : Char) : Bool :=
  c == '8' || c == '9' || c == 'a' || c == 'A' || c == 'b' || c == 'B'

/-- The negative-lookahead body of the fill regex of
`generate_guids_for_yaml`:
`[ \t]*[a-f0-9]{8}-[a-f0-9]{4}-7[a-f0-9]{3}-[89aAbB][a-f0-9]{3}-[a-f0-9]{12}`,
matched as a prefix of the text after `guid:` (the pattern has no end
anchor, so trailing text is ignored). -/
def v7After (l : Line) : Bool :=
  (((takeHex 8 (l.dropWhile isSpTabC)).bind fun a => (chompDash a).bind fun b =>
    (takeHex 4 b).bind fun c => (chompDash c).bind fun d =>
    (match d with | '7' :: d2 => takeHex 3 d2 | _ => none).bind fun e =>
    (chompDash e).bind fun f =>
    (match f with
     | v :: f2 => if v7Variant v then takeHex 3 f2 else none
     | _ => none).bind fun g =>
    (chompDash g).bind fun h => takeHex 12 h)).isSome

/-- Split a line matching `^([ \t]*guid:)` into the captured group 1
(the indentation plus the five `guid:` characters, kept verbatim) and
the rest of the line; `none` when the line does not match. -/
def guidColonSplit (l : Line) : Option (Line × Line) :=
  match matchCI "guid:".data (l.dropWhile isSpTabC) with
  | some rest => some (l.takeWhile isSpTabC ++ (l.dropWhile isSpTabC).take 5, rest)
  | none => none

/-- Match `^([ \t]*-[ \t]*)name:` on a line (the guid-insertion regex of
`generate_guids_for_yaml`), returning the captured group 2
`[ \t]*-[ \t]*`. -/
def nameLinePre (l : Line) : Option Line :=
  match l.dropWhile isSpTabC with
  | '-' :: b =>
    if (matchCI "name:".data (b.dropWhile isSpTabC)).isSome
    then some (l.takeWhile isSpTabC ++ '-' :: b.takeWhile isSpTabC)
    else none
  | _ => none

/-- `m.group(2).replace('-', ' ')` of the insertion regex. -/
def dashToSpace (l : Line) : Line := l.map fun c => if c = '-' then ' ' else c

/-- The lookahead `(?!\s*guid)` evaluated at the end of a line: skipping
whitespace (including newlines, i.e. whole blank lines), does the
following text start with `guid` (case-insensitively)? -/
def guidFollows : List Line → Bool
  | [] => false
  | l :: ls =>
    let r := l.dropWhile isPyWsC
    if r.isEmpty then guidFollows ls else (matchCI "guid".data r).isSome

/-- The first `re.sub` of `generate_guids_for_yaml`: after every list
entry `- name:` line not already followed by a `guid` field, insert a
fresh `guid:` line whose indentation is group 2 with the dash replaced
by a space.  `re.sub` scans the original text, so the lookahead is
evaluated on the original following lines. -/
def insertGuidLines : List Line → List Line
  | [] => []
  | l :: ls =>
    match nameLinePre l with
    | some p =>
      if guidFollows ls then l :: insertGuidLines ls
      else l :: (dashToSpace p ++ "guid:".data) :: insertGuidLines ls
    | none => l :: insertGuidLines ls

/-- Add an identifier to the seen-set (Python `set.add`). -/
def addSeen (g : Line) (s : List Line) : List Line :=
  if g ∈ s then s else g :: s

/-- Seed the shared seen-set with this file's well-formed identifiers,
lower-cased (the `for guid in existing_guid_matches` loop). -/
def seedSeen (lines : List Line) (seen : List Line) : List Line :=
  (extractGuids lines).foldl (fun s g => addSeen g s) seen

/-- The retry loop of `replace_guid`: draw candidates from the supply
until one is found whose lower-casing is not in the seen-set.  Returns
the chosen identifier and the remaining supply, or `none` when the
supply is exhausted. -/
def pickFresh (seen : List Line) : List Line → Option (Line × List Line)
  | [] => none
  | g :: gs => if lowL g ∈ seen then pickFresh seen gs else some (g, gs)

/-- The second `re.sub` of `generate_guids_for_yaml`: every line
matching `^([ \t]*guid:)` whose remainder does not begin (after
`[ \t]*`) with a version-7 variant-[89ab] shaped uuid is replaced by
group 1, a space and a freshly picked identifier; the picked identifier
is recorded (lower-cased) in the seen-set.  Returns the rewritten
lines, the final seen-set, the remaining supply and the list of
identifiers generated for this file (the last component is not part of
the Python return value; it is carried so the theorems can speak about
the freshly synthesized identifiers). -/
def fillGuids (seen supply : List Line) :
    List Line → Option (List Line × List Line × List Line × List Line)
  | [] => some ([], seen, supply, [])
  | l :: ls =>
    match guidColonSplit l with
    | some pr =>
      if v7After pr.2 then
        match fillGuids seen supply ls with
        | some (out, s1, sup1, gens) => some (l :: out, s1, sup1, gens)
        | none => none
      else
        match pickFresh seen supply with
        | none => none
        | some (g, sup0) =>
          match fillGuids (addSeen (lowL g) seen) sup0 ls with
          | some (out, s1, sup1, gens) =>
            some ((pr.1 ++ ' ' :: g) :: out, s1, sup1, g :: gens)
          | none => none
    | none =>
      match fillGuids seen supply ls with
      | some (out, s1, sup1, gens) => some (l :: out, s1, sup1, gens)
      | none => none

/-- `generate_guids_for_yaml` of `src/add_guids.py` on one file: seed
the shared seen-set with the file's well-formed identifiers, insert
missing `guid:` fields after `- name:` entries, then fill every
`guid:` field that does not carry a version-7 shaped value.  Returns
the rewritten lines, the modified flag (`text != og_text`), the final
seen-set, the remaining supply and the generated identifiers. -/
def generateGuidsForYaml (lines seen supply : List Line) :
    Option (List Line × Bool × List Line × List Line × List Line) :=
  match fillGuids (seedSeen lines seen) supply (insertGuidLines lines) with
  | some (out, s1, sup1, gens) => some (out, decide ¬(out = lines), s1, sup1, gens)
  | none => none

/-- The per-file loop of `add_guids_to_yaml_files`, threading the
shared seen-set and the generator supply; returns the rewritten files,
the number of files updated, the final seen-set, the remaining supply,
and per file the list of identifiers generated for it. -/
def addGuidsRunAux (seen supply : List Line) :
    List (List Line) →
    Option (List (List Line) × Nat × List Line × List Line × List (List Line))
  | [] => some ([], 0, seen, supply, [])
  | f :: fs =>
    match generateGuidsForYaml f seen supply with
    | none => none
    | some (f1, m, s1, sup1, gens) =>
      match addGuidsRunAux s1 sup1 fs with
      | some (fs1, n, s2, sup2, gl) =>
        some (f1 :: fs1, (if m then 1 else 0) + n, s2, sup2, gens :: gl)
      | none => none

/-- `add_guids_to_yaml_files`: process every file in order, starting
from an empty shared seen-set. -/
def addGuidsToYamlFiles (files : List (List Line)) (supply : List Line) :
    Option (List (List Line) × Nat × List Line × List Line × List (List Line)) :=
  addGuidsRunAux [] supply files

/-- The well-formed guid lines of one file with their 1-based line
numbers, as scanned by `check_for_duplicate_guids`. -/
def guidScanFile (fname : String) (lines : List Line) :
    List (Line × String × Nat) :=
  lines.enum.filterMap fun p =>
    (guidLineValue p.2).map fun g => (g, fname, p.1 + 1)

/-- The whole-corpus scan of `check_for_duplicate_guids`, files in
order. -/
def guidScan (files : List (String × List Line)) : List (Line × String × Nat) :=
  (files.map fun f => guidScanFile f.1 f.2).flatten

/-- Append one location under a key of an insertion-ordered association
map (the `guid_locations` dict of `check_for_duplicate_guids`). -/
def addLoc {κ α : Type} [DecidableEq κ] :
    List (κ × List α) → κ → α → List (κ × List α)
  | [], k, a => [(k, [a])]
  | (k0, ls) :: rest, k, a =>
    if k0 = k then (k0, ls ++ [a]) :: rest else (k0, ls) :: addLoc rest k a

/-- Build the location multimap from a scan, in scan order. -/
def buildMap {κ α : Type} [DecidableEq κ] (ps : List (κ × α)) :
    List (κ × List α) :=
  ps.foldl (fun m p => addLoc m p.1 p.2) []

/-- The `guid_locations` map of `check_for_duplicate_guids`. -/
def guidLocations (files : List (String × List Line)) :
    List (Line × List (String × Nat)) :=
  buildMap (guidScan files)

/-- The duplicate entries: identifiers with more than one location. -/
def duplicateGuids (files : List (String × List Line)) :
    List (Line × List (String × Nat)) :=
  (guidLocations files).filter fun p => decide (1 < p.2.length)

/-- `check_for_duplicate_guids`: the has-duplicates flag and the
duplicates map. -/
def checkForDuplicateGuids (files : List (String × List Line)) :
    Bool × List (Line × List (String × Nat)) :=
  (decide ¬(duplicateGuids files = []), duplicateGuids files)

/-! ### String helpers for the `src/main.py` model -/

/-- Split a character list at newlines (Python `str.split("\n")`):
`"a\nb"` gives `["a", "b"]`, a trailing newline gives a final empty
piece. -/
def splitLinesAux (acc : List Char) : List Char → List (List Char)
  | [] => [acc.reverse]
  | c :: cs =>
    if c = '\n' then acc.reverse :: splitLinesAux [] cs
    else splitLinesAux (c :: acc) cs

/-- Python `str.split("\n")` on a string. -/
def splitLinesS (s : String) : List String :=
  (splitLinesAux [] s.data).map String.mk

/-- Python `str.strip()` on a character list. -/
def pyStripL (l : List Char) : List Char :=
  ((l.dropWhile isPyWsC).reverse.dropWhile isPyWsC).reverse

/-- Python `str.strip()`. -/
def pyStrip (s : String) : String := String.mk (pyStripL s.data)

/-- Python `str.startswith`. -/
def startsWithS (pat s : String) : Bool := pat.data.isPrefixOf s.data

/-- Python `pat in s` substring membership, on character lists. -/
def substrMemL (pat : List Char) : List Char → Bool
  | [] => pat.isEmpty
  | c :: cs => pat.isPrefixOf (c :: cs) || substrMemL pat cs

/-- Python `pat in s` substring membership. -/
def substrMem (pat s : String) : Bool := substrMemL pat.data s.data

/-- Python `str.replace` (all occurrences, scanning left to right and
continuing after each replacement), implemented with a fuel argument
equal to the length of the subject so the recursion is structural.  The
patterns used by the emitters are never empty, and an empty pattern
leaves the subject unchanged here. -/
def replaceFuel (pat rep : List Char) : Nat → List Char → List Char
  | 0, s => s
  | _ + 1, [] => []
  | fuel + 1, c :: cs =>
    if pat ≠ [] ∧ pat.isPrefixOf (c :: cs)
    then rep ++ replaceFuel pat rep fuel (List.drop pat.length (c :: cs))
    else c :: replaceFuel pat rep fuel cs

/-- Python `s.replace(pat, rep)`. -/
def pyReplace (s pat rep : String) : String :=
  String.mk (replaceFuel pat.data rep.data s.data.length s.data)

/-- Python `"\n".join`. -/
def joinNL : List String → String
  | [] => ""
  | [x] => x
  | x :: xs => x ++ "\n" ++ joinNL xs

/-- Python `sep.join`. -/
def joinSep (sep : String) : List String → String
  | [] => ""
  | [x] => x
  | x :: xs => x ++ sep ++ joinSep sep xs

/-! ### The definition model of `src/main.py` -/

/-- A declared argument default, tagged with its inferred primitive
kind (the closed set the YAML schema admits).  A float default carries
its literal rendering, since only its text is ever used. -/
inductive Default where
  | str (v : String)
  | bool (b : Bool)
  | int (n : Int)
  | float (lit : String)
deriving DecidableEq

/-- Python `type(default_value).__name__`. -/
def typeName : Default → String
  | .str _ => "str"
  | .bool _ => "bool"
  | .int _ => "int"
  | .float _ => "float"

/-- Python `str(default_value)` / f-string interpolation of a default. -/
def pyStr : Default → String
  | .str v => v
  | .bool b => if b then "True" else "False"
  | .int n => toString n
  | .float l => l

/-- The `language` literal of the `Script` model. -/
inductive ScriptLanguage where
  | appleScript
  | javaScript
deriving DecidableEq

/-- The `Script` pydantic model of `src/main.py` (the fields the
emitters read).  `args` is the ordered argument mapping; the Python
`None` and `{}` are both modelled by `[]`, matching the falsiness test
`if self.args:`. -/
structure Script where
  name : String
  command : String
  language : ScriptLanguage
  elevation_required : Bool := false
  tcc_required : Bool := false
  args : List (String × Default) := []
  description : String := ""
deriving DecidableEq

/-! ### `Script.to_osascript` -/

/-- The framework-hoisting loop of `Script.to_osascript` (lines 145-160):
partition `command.strip().split("\n")` into the stripped lines whose
stripped text starts with `use framework` and the remaining original
lines. -/
def osaSplitAux : List String → List String × List String
  | [] => ([], [])
  | l :: ls =>
    let r := osaSplitAux ls
    if startsWithS "use framework" (pyStrip l)
    then (pyStrip l :: r.1, r.2)
    else (r.1, l :: r.2)

/-- The framework split of `to_osascript`: the hoisted preamble lines
and the remaining command text (`"\n".join(command_lines)`). -/
def osaSplitFw (command : String) : List String × String :=
  let r := osaSplitAux (splitLinesS (pyStrip command))
  (r.1, joinNL r.2)

/-- One argument substitution of `to_osascript` (lines 206-210): first
replace the quote-wrapped placeholder by the bare parameter name, then
the unquoted placeholder. -/
def substOsaOne (command n : String) : String :=
  pyReplace (pyReplace command ("\"#\x7b" ++ n ++ "\x7d\"") n)
    ("#\x7b" ++ n ++ "\x7d") n

/-- The substitution loop of `to_osascript` over the declared arguments
in order. -/
def substituteOsa (args : List (String × Default)) (command : String) : String :=
  args.foldl (fun c p => substOsaOne c p.1) command

/-- The body emission shared by the emitters: strip the command, split
into lines, keep the non-blank ones, indent each stripped line by four
spaces. -/
def bodyLines (command : String) : List String :=
  (splitLinesS (pyStrip command)).filterMap fun l =>
    if (pyStrip l).isEmpty then none else some ("    " ++ pyStrip l)

/-- The example literal of `to_osascript` (lines 223-229). -/
def osaExampleLit : Default → String
  | .str v => "\"" ++ v ++ "\""
  | .bool b => if b then "true" else "false"
  | .int n => toString n
  | .float l => l

/-- The help function emitted by `to_osascript` (lines 163-198). -/
def osaHelpLines (s : Script) : List String :=
  ["on show_help()",
   "    log \"" ++ s.name ++ "\"",
   "    log \"\"",
   "    log \"Usage: Run this script to execute the command.\""]
  ++ (if s.args.isEmpty then [] else
      ["    log \"\"",
       "    log \"Available arguments (in order):\""]
      ++ (s.args.enum.map fun p =>
            "    log \"  " ++ toString (p.1 + 1) ++ ". " ++ p.2.1 ++ ": "
              ++ typeName p.2.2 ++ " (default: " ++ pyStr p.2.2 ++ ")\"")
      ++ ["    log \"\"",
          "    log \"Usage examples:\"",
          "    log \"  osascript script.scpt                    # Use all defaults\""]
      ++ (if s.args.length = 1 then
            ["    log \"  osascript script.scpt [value]            # Set "
               ++ (s.args.map Prod.fst).headD "" ++ "\""]
          else
            ["    log \"  osascript script.scpt [arg1]             # Set first argument\"",
             "    log \"  osascript script.scpt [arg1] [arg2] ...  # Set all arguments\""]))
  ++ ["end show_help", ""]

/-- The per-argument parsing block of the `on run argv` dispatch of
`to_osascript` (lines 246-261), for the argument at 0-based position
`i`: when the positional argument is present it is bound verbatim,
otherwise the typed default literal is used. -/
def osaArgParseLines (i : Nat) (n : String) (d : Default) : List String :=
  ["    -- Parse " ++ n ++ " (argument " ++ toString (i + 1) ++ ")",
   "    if (count of argv) > " ++ toString i ++ " then",
   "        set " ++ n ++ " to item " ++ toString (i + 1) ++ " of argv",
   "    else",
   (match d with
    | .str v => "        set " ++ n ++ " to \"" ++ v ++ "\""
    | .bool b => "        set " ++ n ++ " to " ++ (if b then "true" else "false")
    | .int m => "        set " ++ n ++ " to " ++ toString m
    | .float l => "        set " ++ n ++ " to " ++ l),
   "    end if",
   "    "]

/-- `Script.to_osascript`, as the list of lines joined by the final
`"\n".join(script_lines)`. -/
def to_osascript_lines (s : Script) : List String :=
  let hoist := substrMem "use framework" s.command
  let fwSeg : List String := if hoist then (osaSplitFw s.command).1 ++ [""] else []
  let command := if hoist then (osaSplitFw s.command).2 else s.command
  ["#!/usr/bin/osascript\n"] ++ fwSeg
  ++ osaHelpLines s
  ++ (if s.args.isEmpty then
        ["on main()"]
        ++ bodyLines command
        ++ ["end main", "",
            "on run argv",
            "    if (count of argv) > 0 and item 1 of argv is \"-h\" then",
            "        show_help()",
            "        return",
            "    end if",
            "    ",
            "    main()",
            "end run"]
      else
        ["on main(" ++ joinSep ", " (s.args.map Prod.fst) ++ ")"]
        ++ bodyLines (substituteOsa s.args command)
        ++ ["end main", "",
            "-- Example usage with default values:",
            "-- main(" ++ joinSep ", " (s.args.map fun p => osaExampleLit p.2) ++ ")",
            "",
            "-- Handle command line arguments",
            "on run argv",
            "    if (count of argv) > 0 and item 1 of argv is \"-h\" then",
            "        show_help()",
            "        return",
            "    end if",
            "    "]
        ++ (s.args.enum.map fun p => osaArgParseLines p.1 p.2.1 p.2.2).flatten
        ++ ["    main(" ++ joinSep ", " (s.args.map Prod.fst) ++ ")",
            "end run"])

/-- `Script.to_osascript`. -/
def to_osascript (s : Script) : String := joinNL (to_osascript_lines s)

/-- `Script.to_javascript` (lines 291-293): the shebang joined with the
raw command. -/
def to_javascript (s : Script) : String :=
  "#!/usr/bin/osascript -l JavaScript\n" ++ s.command

/-! ### The Swift wrapper emitters -/

/-- The Swift native type chosen for an inferred kind. -/
def swiftType : Default → String
  | .str _ => "String"
  | .bool _ => "Bool"
  | .int _ => "Int"
  | .float _ => "Double"

/-- The example literal of the Swift wrappers. -/
def swiftExampleLit (n : String) (d : Default) : String :=
  match d with
  | .str v => n ++ ": \"" ++ v ++ "\""
  | .bool b => n ++ ": " ++ (if b then "true" else "false")
  | .int m => n ++ ": " ++ toString m
  | .float l => n ++ ": " ++ l

/-- One argument substitution of the Swift wrappers (lines 366-370 and
565-569): only the unquoted placeholder is replaced, by a Swift string
interpolation of the parameter. -/
def substSwiftOne (command n : String) : String :=
  pyReplace command ("#\x7b" ++ n ++ "\x7d") ("\\(" ++ n ++ ")")

/-- The substitution loop of the Swift wrappers. -/
def substituteSwift (args : List (String × Default)) (command : String) : String :=
  args.foldl (fun c p => substSwiftOne c p.1) command

/-- The `showHelp` function emitted by both Swift wrappers, with the
usage line that differs between them. -/
def swiftHelpLines (usage : String) (s : Script) : List String :=
  ["func showHelp() \x7b",
   "    print(\"" ++ s.name ++ "\")",
   "    print(\"\")",
   "    print(\"" ++ usage ++ "\")"]
  ++ (if s.args.isEmpty then [] else
      ["    print(\"\")",
       "    print(\"Available arguments (in order):\")"]
      ++ (s.args.enum.map fun p =>
            "    print(\"  " ++ toString (p.1 + 1) ++ ". " ++ p.2.1 ++ ": "
              ++ typeName p.2.2 ++ " (default: " ++ pyStr p.2.2 ++ ")\")")
      ++ ["    print(\"\")",
          "    print(\"Usage examples:\")",
          "    print(\"  swift script.swift                    # Use all defaults\")"]
      ++ (if s.args.length = 1 then
            ["    print(\"  swift script.swift [value]            # Set "
               ++ (s.args.map Prod.fst).headD "" ++ "\")"]
          else
            ["    print(\"  swift script.swift [arg1]             # Set first argument\")",
             "    print(\"  swift script.swift [arg1] [arg2] ...  # Set all arguments\")"]))
  ++ ["\x7d", ""]

/-- The per-argument parsing block of the Swift dispatch (lines 424-470,
duplicated verbatim at lines 611-657): declare a typed variable
initialised to the default, and when the positional argument is present
coerce it by the inferred kind — passthrough for strings, a
case-insensitive comparison with `"true"` for booleans, `Int(...)` /
`Double(...)` with nil-coalescing fallback to the default for the
numeric kinds. -/
def swiftArgParseLines (i : Nat) (n : String) (d : Default) : List String :=
  ["// Parse " ++ n ++ " (argument " ++ toString (i + 1) ++ ")",
   "var " ++ n ++ ": " ++ swiftType d,
   (match d with
    | .str v => "    = \"" ++ v ++ "\""
    | .bool b => "    = " ++ (if b then "true" else "false")
    | .int m => "    = " ++ toString m
    | .float l => "    = " ++ l),
   "if arguments.count > " ++ toString (i + 1) ++ " \x7b",
   (match d with
    | .str _ => "    " ++ n ++ " = arguments[" ++ toString (i + 1) ++ "]"
    | .bool _ => "    " ++ n ++ " = arguments[" ++ toString (i + 1)
        ++ "].lowercased() == \"true\""
    | .int m => "    " ++ n ++ " = Int(arguments[" ++ toString (i + 1)
        ++ "]) ?? " ++ toString m
    | .float l => "    " ++ n ++ " = Double(arguments[" ++ toString (i + 1)
        ++ "]) ?? " ++ l),
   "\x7d",
   ""]

/-- The main-function signature, example comment and dispatch shared by
both Swift wrappers, around a backend-specific execution block. -/
def swiftCommonTail (s : Script) : List String :=
  (if s.args.isEmpty then [] else
    ["// Example usage with default values:",
     "// main(" ++ joinSep ", " (s.args.map fun p => swiftExampleLit p.1 p.2) ++ ")",
     ""])
  ++ ["// Handle command line arguments",
      "let arguments = CommandLine.arguments",
      "",
      "if arguments.count > 1 && arguments[1] == \"-h\" \x7b",
      "    showHelp()",
      "    exit(0)",
      "\x7d",
      ""]
  ++ (if s.args.isEmpty then ["main()"] else
      (s.args.enum.map fun p => swiftArgParseLines p.1 p.2.1 p.2.2).flatten
      ++ ["main(" ++ joinSep ", " (s.args.map fun p => p.1 ++ ": " ++ p.1) ++ ")"])

/-- The `func main` signature line of the Swift wrappers. -/
def swiftMainSig (s : Script) : String :=
  if s.args.isEmpty then "func main() \x7b"
  else "func main(" ++ joinSep ", "
    (s.args.map fun p => p.1 ++ ": " ++ swiftType p.2) ++ ") \x7b"

/-- `Script.to_swift_wrapper` (lines 295-478), as its line list. -/
def to_swift_wrapper_lines (s : Script) : List String :=
  ["#!/usr/bin/env swift", "", "import Foundation", ""]
  ++ swiftHelpLines "Usage: Run this script to execute the AppleScript command." s
  ++ [swiftMainSig s]
  ++ ["    let script = \"\"\""]
  ++ bodyLines (substituteSwift s.args s.command)
  ++ ["    \"\"\"",
      "",
      "    let appleScript = NSAppleScript(source: script)",
      "    var error: NSDictionary?",
      "    let result = appleScript?.executeAndReturnError(&error)",
      "",
      "    if let error = error \x7b",
      "        print(\"Error executing AppleScript: \\(error)\")",
      "    \x7d else \x7b",
      "        print(\"\\(result?.stringValue ?? result?.debugDescription ?? \"No output\")\")",
      "    \x7d",
      "\x7d",
      ""]
  ++ swiftCommonTail s

/-- `Script.to_swift_wrapper`. -/
def to_swift_wrapper (s : Script) : String := joinNL (to_swift_wrapper_lines s)

/-- `Script.to_swift_javascript_wrapper` (lines 480-665), as its line
list. -/
def to_swift_javascript_wrapper_lines (s : Script) : List String :=
  ["#!/usr/bin/env swift", "", "import Foundation", "import OSAKit", ""]
  ++ swiftHelpLines "Usage: Run this script to execute the JXA." s
  ++ ["// Execute JXA using OSAKit",
      "func executeJXA(_ script: String) -> String \x7b",
      "    // Create an OSA script with JavaScript language",
      "    let osaScript = OSAScript(source: script, language: OSALanguage(forName: \"JavaScript\"))",
      "    ",
      "    // Execute the script",
      "    let result = osaScript.executeAndReturnError(nil)",
      "    ",
      "    return result?.stringValue ?? result.debugDescription",
      "\x7d",
      ""]
  ++ [swiftMainSig s]
  ++ ["    let jxaScript = \"\"\""]
  ++ bodyLines (substituteSwift s.args s.command)
  ++ ["    \"\"\"",
      "",
      "    print(executeJXA(jxaScript))",
      "\x7d",
      ""]
  ++ swiftCommonTail s

/-- `Script.to_swift_javascript_wrapper`. -/
def to_swift_javascript_wrapper (s : Script) : String :=
  joinNL (to_swift_javascript_wrapper_lines s)

/-! ### `validate_yaml_files` -/

/-- A reported duplicate-name violation of `validate_yaml_files`: the
error strings of the Python code carry exactly this data. -/
inductive NameViolation where
  | dupInFile (name file : String)
  | dupCrossFile (name file existingFile : String)
deriving DecidableEq

/-- First-occurrence deduplication, modelling the iteration over the
Python `set(script_names_in_file)` (whose iteration order is
unspecified; first-occurrence order is used here). -/
def dedupFirst : List String → List String
  | [] => []
  | x :: xs => x :: (dedupFirst xs).filter fun y => y != x

/-- The within-file duplicate names of one file (lines 701-706):
names occurring more than once. -/
def withinFileDups (names : List String) : List String :=
  (dedupFirst names).filter fun n => decide (1 < names.count n)

/-- The cross-file duplicate check of one file (lines 712-720): fold
over the file's test names, reporting a violation when the name was
already recorded by an earlier file and recording it otherwise. -/
def crossFold (file : String)
    (st : List NameViolation × List (String × String)) (names : List String) :
    List NameViolation × List (String × String) :=
  names.foldl (fun st n =>
    match List.lookup n st.2 with
    | some f0 => (st.1 ++ [NameViolation.dupCrossFile n file f0], st.2)
    | none => (st.1, st.2 ++ [(n, file)])) st

/-- `validate_yaml_files` on an already-parsed corpus (yaml parsing and
schema validation are performed by external libraries): the collected
violations and the success flag, which is true exactly when no
violation was recorded. -/
def validateYamlFiles (files : List (String × List String)) :
    List NameViolation × Bool :=
  let r := files.foldl (fun st f =>
    let errsW := (withinFileDups f.2).map fun n => NameViolation.dupInFile n f.1
    crossFold f.1 (st.1 ++ errsW, st.2) f.2) ([], [])
  (r.1, r.1.isEmpty)

/-! ### Auxiliary predicates used by the theorems -/

/-- Look a key up in an insertion-ordered association map, returning
its location list (empty when absent). -/
def assocGet {κ α : Type} [DecidableEq κ] : List (κ × List α) → κ → List α
  | [], _ => []
  | (k0, ls) :: rest, k => if k0 = k then ls else assocGet rest k

/-- A character that is not an ASCII upper-case letter. -/
def noUpperC (c : Char) : Bool := !(decide ('A' ≤ c) && decide (c ≤ 'Z'))

/-- A string without ASCII upper-case letters — the shape of every
identifier after the lower-casing the guid code applies before
recording. -/
def noUpperL (l : Line) : Bool := l.all noUpperC

/-- Every `- name:` line is followed (through whitespace) by a `guid`
field, i.e. the insertion pass has nothing to do. -/
def nameOkB : List Line → Bool
  | [] => true
  | l :: ls => (!(nameLinePre l).isSome || guidFollows ls) && nameOkB ls

/-- Every `guid:` line carries a version-7 shaped value, i.e. the fill
pass has nothing to do. -/
def guidOkB (lines : List Line) : Bool :=
  lines.all fun l =>
    match guidColonSplit l with
    | some pr => v7After pr.2
    | none => true

/-- Every test entry of the file already carries a structurally valid
version-7 shaped identifier, in the position the assigner maintains:
each `- name:` line is followed by its `guid` field and each `guid:`
field holds a version-7 shaped value. -/
def everyEntryCarriesValidGuid (lines : List Line) : Bool :=
  nameOkB lines && guidOkB lines

/-- Relation between an input line and the corresponding output line of
the fill pass: either kept verbatim, or a `guid:` line without a
version-7 value rewritten to its captured prefix, a space and an
identifier drawn from the supply. -/
inductive FillRel (sup : List Line) : Line → Line → Prop
  | keep (l : Line)
      (hk : ∀ p rest, guidColonSplit l = some (p, rest) → v7After rest = true) :
      FillRel sup l l
  | repl (l p rest g : Line) (h : guidColonSplit l = some (p, rest))
      (hv : v7After rest = false) (hg : g ∈ sup) :
      FillRel sup l (p ++ ' ' :: g)

-- ===== end of definitions =====

example : guidLineValue "  guid: 00112233-4455-7677-8899-aabbccddeeff".data =
    some "00112233-4455-7677-8899-aabbccddeeff".data := by decide

example : guidLineValue "  guid: 00112233-4455-7677-8899-AABBCCDDEEFF".data =
    some "00112233-4455-7677-8899-aabbccddeeff".data := by decide

example : guidLineValue "  guid: 00112233-4455-7677-8899-aabbccddeeff extra".data =
    none := by decide

example : v7After " 00112233-4455-7677-8899-aabbccddeeff".data = true := by decide

example : v7After " 00112233-4455-4677-8899-aabbccddeeff".data = false := by decide

example :
    insertGuidLines ["- name: t".data, "  cmd: x".data] =
      ["- name: t".data, "  guid:".data, "  cmd: x".data] := by decide

example :
    insertGuidLines ["- name: t".data, "  guid: x".data] =
      ["- name: t".data, "  guid: x".data] := by decide

/-! ### Claim C8 -/

/-- C8: for the corpus of file A with tests named `["Alpha","Beta"]` and
file B with tests named `["Beta","Gamma"]`, `validate_yaml_files`
reports exactly one duplicate-name violation, for `"Beta"`, referencing
both files, no violation for `"Alpha"` or `"Gamma"`, and the validation
pass fails. -/
theorem C8_cross_file_duplicate :
    validateYamlFiles [("A", ["Alpha", "Beta"]), ("B", ["Beta", "Gamma"])] =
      ([NameViolation.dupCrossFile "Beta" "B" "A"], false) := by
  decide

/-! ### Claim C1, counterexample -/

/-- C1 counterexample: the interpreted-script emitter for the
JavaScript dialect, `Script.to_javascript`, emits only the shebang line
and the raw command; for the test named `"T"` with command `"1+1"` the
artifact contains no help routine, no usage line and no help-flag
dispatch, refuting the claim that every emitter variant emits them. -/
theorem C1_counterexample :
    to_javascript { name := "T", command := "1+1", language := .javaScript } =
        "#!/usr/bin/osascript -l JavaScript\n1+1"
    ∧ substrMem "-h" "#!/usr/bin/osascript -l JavaScript\n1+1" = false
    ∧ substrMem "help" "#!/usr/bin/osascript -l JavaScript\n1+1" = false
    ∧ substrMem "Usage" "#!/usr/bin/osascript -l JavaScript\n1+1" = false
    ∧ substrMem "T" "#!/usr/bin/osascript -l JavaScript\n1+1" = false := by
  exact ⟨rfl, by decide, by decide, by decide, by decide⟩

/-! ### Claim C3, counterexample -/

/-- C3 counterexample: in the dispatch routine generated by
`Script.to_osascript`, a present positional argument is bound verbatim
(`set count to item 1 of argv`) with no kind-directed coercion: the
emitted block for an integer-kind argument contains no parse of the
positional value and no fallback to the default, and its
positional-binding line is identical to the one emitted for a
string-kind argument, refuting the claim that every generated dispatch
routine coerces the positional argument to the inferred kind. -/
theorem C3_counterexample :
    osaArgParseLines 0 "count" (Default.int 5) =
      ["    -- Parse count (argument 1)",
       "    if (count of argv) > 0 then",
       "        set count to item 1 of argv",
       "    else",
       "        set count to 5",
       "    end if",
       "    "]
    ∧ (osaArgParseLines 0 "count" (Default.int 5))[2]? =
        (osaArgParseLines 0 "count" (Default.str "five"))[2]?
    ∧ "        set count to item 1 of argv" ∈ to_osascript_lines
        { name := "t", command := "log #\x7bcount\x7d", language := .appleScript,
          args := [("count", Default.int 5)] } := by
  exact ⟨by decide, by decide, by decide⟩

/-! ### Claim C4, counterexample -/

/-- C4 counterexample: in the compiled-wrapper substitution
(`Script.to_swift_wrapper`, lines 366-370), a placeholder occurrence
that is fully quote-wrapped in the source keeps its surrounding quotes:
`do shell script "#\x7bpath\x7d"` becomes
`do shell script "\(path)"`, with the quotes still present, refuting
the claim that every backend performing substitution removes the
surrounding quotes of quote-wrapped occurrences. -/
theorem C4_counterexample :
    substituteSwift [("path", Default.str "/tmp")]
        "do shell script \"#\x7bpath\x7d\"" = "do shell script \"\\(path)\""
    ∧ substrMem "\"\\(path)\""
        (substituteSwift [("path", Default.str "/tmp")]
          "do shell script \"#\x7bpath\x7d\"") = true := by
  exact ⟨by decide, by decide⟩

/-! ### Claim C6, counterexample -/

/-- C6 counterexample: `Script.to_swift_wrapper` performs no
framework-line hoisting: a body line `use framework #\x7bfw\x7d` is left in
the command body and is parameter-substituted, appearing in the
emitted artifact as the embedded body line `use framework \(fw)`,
refuting the claim that in every emitter such lines are hoisted as a
preamble and never parameter-substituted. -/
theorem C6_counterexample :
    "    use framework \\(fw)" ∈ to_swift_wrapper_lines
      { name := "t", command := "use framework #\x7bfw\x7d\nlog 1",
        language := .appleScript, args := [("fw", Default.str "Foundation")] } := by
  decide

/-! ### Claim C10, counterexample -/

/-- C10 counterexample: a `guid:` line whose remainder is a version-7
shaped uuid followed by trailing text is not replaced by the fill step
of `generate_guids_for_yaml` (the negative lookahead has no end anchor
and already matches on the uuid prefix), even though the remainder as a
whole is not a well-formed identifier (second conjunct), refuting the
claim that every such line is overwritten. -/
theorem C10_counterexample :
    fillGuids [] ["99999999-9999-7999-8999-999999999999".data]
        ["  guid: 11111111-1111-7111-8111-111111111111 trailing".data] =
      some (["  guid: 11111111-1111-7111-8111-111111111111 trailing".data], [],
        ["99999999-9999-7999-8999-999999999999".data], [])
    ∧ guidLineValue "  guid: 11111111-1111-7111-8111-111111111111 trailing".data
        = none := by
  exact ⟨by decide, by decide⟩

/-! ### Claim C2, counterexample -/

/-- C2 counterexample: on a two-file corpus where the first file needs
an identifier and the second file already carries the well-formed
identifier `00000000-0000-7000-8000-000000000000`, a run of
`add_guids_to_yaml_files` whose generator produces that same value
assigns it to the first file: the newly synthesized identifier collides
with an identifier already present in the corpus before the run,
because the shared seen-set only contains identifiers of files already
processed, refuting the claim. -/
theorem C2_counterexample :
    addGuidsToYamlFiles
        [["- name: a".data, "  guid:".data],
         ["- name: b".data, "  guid: 00000000-0000-7000-8000-000000000000".data]]
        ["00000000-0000-7000-8000-000000000000".data] =
      some ([["- name: a".data, "  guid: 00000000-0000-7000-8000-000000000000".data],
             ["- name: b".data, "  guid: 00000000-0000-7000-8000-000000000000".data]],
        1, ["00000000-0000-7000-8000-000000000000".data], [],
        [["00000000-0000-7000-8000-000000000000".data], []])
    ∧ "00000000-0000-7000-8000-000000000000".data ∈
        extractGuids ["- name: b".data,
          "  guid: 00000000-0000-7000-8000-000000000000".data] := by
  exact ⟨by rfl, by decide⟩

/-! ### Claim C1, amended -/

/-- C1 amended: the interpreted AppleScript emitter and both
compiled-wrapper emitters always emit a callable help routine that
prints the test name and a usage line, and a command-line dispatch that
recognizes `-h` as the first argument and short-circuits to the help
routine; the interpreted JavaScript emitter instead emits only the
shebang line followed by the raw command. -/
theorem C1_amended (s : Script) :
    ("on show_help()" ∈ to_osascript_lines s
      ∧ ("    log \"" ++ s.name ++ "\"") ∈ to_osascript_lines s
      ∧ "    log \"Usage: Run this script to execute the command.\""
          ∈ to_osascript_lines s
      ∧ "    if (count of argv) > 0 and item 1 of argv is \"-h\" then"
          ∈ to_osascript_lines s
      ∧ "        show_help()" ∈ to_osascript_lines s)
    ∧ ("func showHelp() \x7b" ∈ to_swift_wrapper_lines s
      ∧ ("    print(\"" ++ s.name ++ "\")") ∈ to_swift_wrapper_lines s
      ∧ "    print(\"Usage: Run this script to execute the AppleScript command.\")"
          ∈ to_swift_wrapper_lines s
      ∧ "if arguments.count > 1 && arguments[1] == \"-h\" \x7b"
          ∈ to_swift_wrapper_lines s
      ∧ "    showHelp()" ∈ to_swift_wrapper_lines s)
    ∧ ("func showHelp() \x7b" ∈ to_swift_javascript_wrapper_lines s
      ∧ ("    print(\"" ++ s.name ++ "\")") ∈ to_swift_javascript_wrapper_lines s
      ∧ "    print(\"Usage: Run this script to execute the JXA.\")"
          ∈ to_swift_javascript_wrapper_lines s
      ∧ "if arguments.count > 1 && arguments[1] == \"-h\" \x7b"
          ∈ to_swift_javascript_wrapper_lines s
      ∧ "    showHelp()" ∈ to_swift_javascript_wrapper_lines s)
    ∧ to_javascript s = "#!/usr/bin/osascript -l JavaScript\n" ++ s.command := by
  refine ⟨?_, ?_, ?_, rfl⟩
  · unfold to_osascript_lines osaHelpLines
    by_cases h : s.args.isEmpty <;>
      by_cases h2 : substrMem "use framework" s.command = true <;>
        simp [h, h2, List.mem_append, List.mem_cons]
  · unfold to_swift_wrapper_lines swiftHelpLines swiftCommonTail
    by_cases h : s.args.isEmpty <;> simp [h, List.mem_append, List.mem_cons]
  · unfold to_swift_javascript_wrapper_lines swiftHelpLines swiftCommonTail
    by_cases h : s.args.isEmpty <;> simp [h, List.mem_append, List.mem_cons]

/-! ### Claim C3, amended -/

/-- C3 amended: in the compiled-wrapper emitters the dispatch block for
each declared argument coerces a present positional argument to the
inferred kind (string passthrough, boolean via a lowercased comparison
with `"true"`, integer and float via `Int(...)`/`Double(...)` with
nil-coalescing fallback to the declared default), else uses the
declared default; in the interpreted-script emitter the present
positional argument is instead bound verbatim, identically for every
kind, and only the absent case uses the typed default; in both
backends the entry routine is finally invoked with the resolved values
in declared order. -/
theorem C3_amended :
    (∀ (i : Nat) (n v : String),
      swiftArgParseLines i n (Default.str v) =
        ["// Parse " ++ n ++ " (argument " ++ toString (i + 1) ++ ")",
         "var " ++ n ++ ": " ++ "String",
         "    = \"" ++ v ++ "\"",
         "if arguments.count > " ++ toString (i + 1) ++ " \x7b",
         "    " ++ n ++ " = arguments[" ++ toString (i + 1) ++ "]",
         "\x7d", ""])
    ∧ (∀ (i : Nat) (n : String) (b : Bool),
      swiftArgParseLines i n (Default.bool b) =
        ["// Parse " ++ n ++ " (argument " ++ toString (i + 1) ++ ")",
         "var " ++ n ++ ": " ++ "Bool",
         "    = " ++ (if b then "true" else "false"),
         "if arguments.count > " ++ toString (i + 1) ++ " \x7b",
         "    " ++ n ++ " = arguments[" ++ toString (i + 1)
           ++ "].lowercased() == \"true\"",
         "\x7d", ""])
    ∧ (∀ (i : Nat) (n : String) (m : Int),
      swiftArgParseLines i n (Default.int m) =
        ["// Parse " ++ n ++ " (argument " ++ toString (i + 1) ++ ")",
         "var " ++ n ++ ": " ++ "Int",
         "    = " ++ toString m,
         "if arguments.count > " ++ toString (i + 1) ++ " \x7b",
         "    " ++ n ++ " = Int(arguments[" ++ toString (i + 1) ++ "]) ?? "
           ++ toString m,
         "\x7d", ""])
    ∧ (∀ (i : Nat) (n l : String),
      swiftArgParseLines i n (Default.float l) =
        ["// Parse " ++ n ++ " (argument " ++ toString (i + 1) ++ ")",
         "var " ++ n ++ ": " ++ "Double",
         "    = " ++ l,
         "if arguments.count > " ++ toString (i + 1) ++ " \x7b",
         "    " ++ n ++ " = Double(arguments[" ++ toString (i + 1) ++ "]) ?? " ++ l,
         "\x7d", ""])
    ∧ (∀ (i : Nat) (n : String) (d : Default),
      (osaArgParseLines i n d)[2]? =
        some ("        set " ++ n ++ " to item " ++ toString (i + 1) ++ " of argv"))
    ∧ (∀ s : Script, ¬s.args.isEmpty = true →
        ("    main(" ++ joinSep ", " (s.args.map Prod.fst) ++ ")")
          ∈ to_osascript_lines s)
    ∧ (∀ s : Script, ¬s.args.isEmpty = true →
        ("main(" ++ joinSep ", " (s.args.map fun p => p.1 ++ ": " ++ p.1) ++ ")")
          ∈ to_swift_wrapper_lines s) := by
  refine ⟨fun i n v => rfl, fun i n b => rfl, fun i n m => rfl, fun i n l => rfl,
    fun i n d => rfl, ?_, ?_⟩
  · intro s h
    unfold to_osascript_lines osaHelpLines
    by_cases h2 : substrMem "use framework" s.command = true <;>
      simp [h, h2, List.mem_append, List.mem_cons]
  · intro s h
    unfold to_swift_wrapper_lines swiftHelpLines swiftCommonTail
    simp [h, List.mem_append, List.mem_cons]

/-- Witness for C3 amended at a concrete two-argument script. -/
theorem C3_amended_witness :
    ("    main(a, b)" ∈ to_osascript_lines
        { name := "t", command := "log 1", language := .appleScript,
          args := [("a", Default.str "x"), ("b", Default.int 2)] })
    ∧ ("main(a: a, b: b)" ∈ to_swift_wrapper_lines
        { name := "t", command := "log 1", language := .appleScript,
          args := [("a", Default.str "x"), ("b", Default.int 2)] }) :=
  ⟨C3_amended.2.2.2.2.2.1
      { name := "t", command := "log 1", language := .appleScript,
        args := [("a", Default.str "x"), ("b", Default.int 2)] } (by decide),
   C3_amended.2.2.2.2.2.2
      { name := "t", command := "log 1", language := .appleScript,
        args := [("a", Default.str "x"), ("b", Default.int 2)] } (by decide)⟩

/-! ### Claim C6, amended -/

/-- The framework-hoisting loop of `to_osascript` partitions the body
lines: the preamble holds exactly the stripped lines whose stripped
text starts with `use framework`, in order, and the kept command holds
exactly the others. -/
lemma osaSplitAux_eq (ls : List String) :
    osaSplitAux ls =
      ((ls.filter fun l => startsWithS "use framework" (pyStrip l)).map pyStrip,
       ls.filter fun l => !(startsWithS "use framework" (pyStrip l))) := by
  induction ls with
  | nil => rfl
  | cons l ls ih =>
    by_cases h : startsWithS "use framework" (pyStrip l) <;>
      simp [osaSplitAux, h, ih]

/-- C6 amended: only the interpreted AppleScript emitter hoists
framework lines.  There, the hoisted preamble consists exactly of the
(stripped) lines whose stripped text begins with `use framework`, the
body handed to substitution consists exactly of the remaining lines,
and when the hoist guard fires the preamble is emitted directly after
the shebang, above the rest of the artifact.  The other emitters
perform no hoisting: the interpreted JavaScript emitter reproduces the
command verbatim, and the compiled wrappers substitute the whole body,
framework lines included (see the counterexample). -/
theorem C6_amended :
    (∀ command : String,
      osaSplitFw command =
        (((splitLinesS (pyStrip command)).filter fun l =>
            startsWithS "use framework" (pyStrip l)).map pyStrip,
         joinNL ((splitLinesS (pyStrip command)).filter fun l =>
            !(startsWithS "use framework" (pyStrip l)))))
    ∧ (∀ s : Script, substrMem "use framework" s.command = true →
        (to_osascript_lines s).take (1 + (osaSplitFw s.command).1.length) =
          "#!/usr/bin/osascript\n" :: (osaSplitFw s.command).1)
    ∧ (∀ s : Script,
        to_javascript s = "#!/usr/bin/osascript -l JavaScript\n" ++ s.command) := by
  refine ⟨fun command => ?_, fun s h => ?_, fun s => rfl⟩
  · unfold osaSplitFw
    rw [osaSplitAux_eq]
  · unfold to_osascript_lines
    simp only [h, if_true, List.cons_append, List.nil_append, List.append_assoc]
    rw [Nat.add_comm 1, List.take_succ_cons]
    rw [List.take_left]

/-- Witness for C6 amended at a concrete script whose command declares
a framework. -/
theorem C6_amended_witness :
    (to_osascript_lines
        { name := "t", command := "use framework Foundation\nlog 1",
          language := .appleScript }).take 2 =
      ["#!/usr/bin/osascript\n", "use framework Foundation"] :=
  C6_amended.2.1
    { name := "t", command := "use framework Foundation\nlog 1",
      language := .appleScript } (by decide)

/-! ### Claim C4, amended: `str.replace` lemmas -/

/-- `str.replace` leaves a subject without occurrences unchanged. -/
lemma replaceFuel_id (pat rep : List Char) :
    ∀ (s : List Char) (fuel : Nat), substrMemL pat s = false →
      replaceFuel pat rep fuel s = s := by
  intro s
  induction s with
  | nil => intro fuel _; cases fuel <;> rfl
  | cons c cs ih =>
    intro fuel h
    rw [substrMemL, Bool.or_eq_false_iff] at h
    cases fuel with
    | zero => rfl
    | succ f =>
      rw [replaceFuel, if_neg, ih f h.2]
      rintro ⟨-, hp⟩
      rw [h.1] at hp
      exact absurd hp (by simp)

/-- `str.replace` on a subject holding a single occurrence of the
pattern: no match starts inside the left part, and the right part
holds no occurrence. -/
lemma replaceFuel_single (pat rep b : List Char) (hne : pat ≠ [])
    (hb : substrMemL pat b = false) :
    ∀ (a : List Char) (fuel : Nat), a.length < fuel →
      (∀ i, i < a.length → pat.isPrefixOf (List.drop i (a ++ pat ++ b)) = false) →
      replaceFuel pat rep fuel (a ++ pat ++ b) = a ++ rep ++ b := by
  intro a
  induction a with
  | nil =>
    intro fuel hf _
    cases fuel with
    | zero => omega
    | succ f =>
      obtain ⟨p0, ps, rfl⟩ := List.exists_cons_of_ne_nil hne
      simp only [List.nil_append, List.cons_append]
      rw [replaceFuel, if_pos]
      · have hd : List.drop (p0 :: ps).length (p0 :: (ps ++ b)) = b := by
          rw [List.length_cons, List.drop_succ_cons, List.drop_left]
        rw [hd, replaceFuel_id _ _ _ _ hb]
      · refine ⟨hne, ?_⟩
        rw [List.isPrefixOf_iff_prefix]
        exact ⟨b, by simp⟩
  | cons x a ih =>
    intro fuel hf hpre
    cases fuel with
    | zero => omega
    | succ f =>
      simp only [List.cons_append]
      rw [replaceFuel, if_neg, ih f (by simp only [List.length_cons] at hf; omega)]
      · intro i hi
        have := hpre (i + 1) (by simpa using Nat.succ_lt_succ hi)
        simpa using this
      · rintro ⟨-, hp⟩
        have := hpre 0 (by simp)
        simp only [List.drop_zero] at this
        rw [List.cons_append, List.cons_append] at this
        rw [this] at hp
        exact absurd hp (by simp)

/-- String-level form of `replaceFuel_id`. -/
lemma pyReplace_id (s pat rep : String) (h : substrMemL pat.data s.data = false) :
    pyReplace s pat rep = s := by
  unfold pyReplace
  rw [replaceFuel_id _ _ _ _ h]

/-- String-level form of `replaceFuel_single`. -/
lemma pyReplace_single (pat rep : String) (a b : List Char) (hne : pat.data ≠ [])
    (hpre : ∀ i, i < a.length →
      pat.data.isPrefixOf (List.drop i (a ++ pat.data ++ b)) = false)
    (hb : substrMemL pat.data b = false) :
    pyReplace (String.mk (a ++ pat.data ++ b)) pat rep =
      String.mk (a ++ rep.data ++ b) := by
  unfold pyReplace
  congr 1
  refine replaceFuel_single pat.data rep.data b hne hb a _ ?_ hpre
  have := List.length_pos.mpr hne
  simp only [List.length_append]
  omega

/-- The quoted emitter placeholder pattern is a quote around the
unquoted one. -/
lemma quotedPat_decomp (n : String) :
    ("\"#\x7b" ++ n ++ "\x7d\"").data =
      '"' :: (("#\x7b" ++ n ++ "\x7d").data ++ ['"']) := by
  simp [String.data_append]

/-- The quoted interpolation is a quote around the interpolation. -/
lemma quotedInterp_decomp (n : String) :
    ("\"\\(" ++ n ++ ")\"").data = '"' :: (("\\(" ++ n ++ ")").data ++ ['"']) := by
  simp [String.data_append]

/-- The quoted placeholder pattern is never empty. -/
lemma quotedPat_ne_nil (n : String) : ("\"#\x7b" ++ n ++ "\x7d\"").data ≠ [] := by
  rw [String.data_append]
  intro h
  exact absurd (List.append_eq_nil.mp h).2 (by decide)

/-- The unquoted placeholder pattern is never empty. -/
lemma unquotedPat_ne_nil (n : String) : ("#\x7b" ++ n ++ "\x7d").data ≠ [] := by
  rw [String.data_append]
  intro h
  exact absurd (List.append_eq_nil.mp h).2 (by decide)

/-- The Swift substitution on a subject with a single unquoted
placeholder occurrence replaces it in place by the string
interpolation. -/
lemma substSwift_single (n : String) (d : Default) (a b : List Char)
    (hpre : ∀ i, i < a.length → ("#\x7b" ++ n ++ "\x7d").data.isPrefixOf
        (List.drop i (a ++ ("#\x7b" ++ n ++ "\x7d").data ++ b)) = false)
    (hb : substrMemL ("#\x7b" ++ n ++ "\x7d").data b = false) :
    substituteSwift [(n, d)] (String.mk (a ++ ("#\x7b" ++ n ++ "\x7d").data ++ b)) =
      String.mk (a ++ ("\\(" ++ n ++ ")").data ++ b) := by
  show substSwiftOne _ n = _
  unfold substSwiftOne
  exact pyReplace_single _ _ a b (unquotedPat_ne_nil n) hpre hb

/-! ### Claim C4, amended -/

/-- C4 amended: in the interpreted-script backend a fully quote-wrapped
placeholder occurrence is replaced with the surrounding quotes removed,
and an unquoted occurrence is replaced in place, in both cases by the
bare parameter name; in the compiled-wrapper backend only the unquoted
form of the placeholder is rewritten, in place, to a string
interpolation of the parameter, so a quote-wrapped occurrence there
keeps its surrounding quotes and becomes a quoted interpolation.
Each part is stated for a subject holding a single occurrence of the
relevant pattern. -/
theorem C4_amended :
    (∀ (n : String) (d : Default) (a b : List Char),
      (∀ i, i < a.length → ("\"#\x7b" ++ n ++ "\x7d\"").data.isPrefixOf
          (List.drop i (a ++ ("\"#\x7b" ++ n ++ "\x7d\"").data ++ b)) = false) →
      substrMemL ("\"#\x7b" ++ n ++ "\x7d\"").data b = false →
      substrMemL ("#\x7b" ++ n ++ "\x7d").data (a ++ n.data ++ b) = false →
      substituteOsa [(n, d)]
          (String.mk (a ++ ("\"#\x7b" ++ n ++ "\x7d\"").data ++ b)) =
        String.mk (a ++ n.data ++ b))
    ∧ (∀ (n : String) (d : Default) (a b : List Char),
      substrMemL ("\"#\x7b" ++ n ++ "\x7d\"").data
          (a ++ ("#\x7b" ++ n ++ "\x7d").data ++ b) = false →
      (∀ i, i < a.length → ("#\x7b" ++ n ++ "\x7d").data.isPrefixOf
          (List.drop i (a ++ ("#\x7b" ++ n ++ "\x7d").data ++ b)) = false) →
      substrMemL ("#\x7b" ++ n ++ "\x7d").data b = false →
      substituteOsa [(n, d)]
          (String.mk (a ++ ("#\x7b" ++ n ++ "\x7d").data ++ b)) =
        String.mk (a ++ n.data ++ b))
    ∧ (∀ (n : String) (d : Default) (a b : List Char),
      (∀ i, i < a.length → ("#\x7b" ++ n ++ "\x7d").data.isPrefixOf
          (List.drop i (a ++ ("#\x7b" ++ n ++ "\x7d").data ++ b)) = false) →
      substrMemL ("#\x7b" ++ n ++ "\x7d").data b = false →
      substituteSwift [(n, d)]
          (String.mk (a ++ ("#\x7b" ++ n ++ "\x7d").data ++ b)) =
        String.mk (a ++ ("\\(" ++ n ++ ")").data ++ b))
    ∧ (∀ (n : String) (d : Default) (a b : List Char),
      (∀ i, i < (a ++ ['"']).length → ("#\x7b" ++ n ++ "\x7d").data.isPrefixOf
          (List.drop i ((a ++ ['"']) ++ ("#\x7b" ++ n ++ "\x7d").data
            ++ ('"' :: b))) = false) →
      substrMemL ("#\x7b" ++ n ++ "\x7d").data ('"' :: b) = false →
      substituteSwift [(n, d)]
          (String.mk (a ++ ("\"#\x7b" ++ n ++ "\x7d\"").data ++ b)) =
        String.mk (a ++ ("\"\\(" ++ n ++ ")\"").data ++ b)) := by
  refine ⟨fun n d a b hpre hb hu => ?_, fun n d a b hq hpre hb => ?_,
    fun n d a b hpre hb => substSwift_single n d a b hpre hb,
    fun n d a b hpre hb => ?_⟩
  · show substOsaOne _ n = _
    unfold substOsaOne
    rw [pyReplace_single _ _ a b (quotedPat_ne_nil n) hpre hb]
    exact pyReplace_id _ _ _ hu
  · show substOsaOne _ n = _
    unfold substOsaOne
    rw [pyReplace_id _ _ _ hq]
    exact pyReplace_single _ _ a b (unquotedPat_ne_nil n) hpre hb
  · have e1 : a ++ ("\"#\x7b" ++ n ++ "\x7d\"").data ++ b =
        (a ++ ['"']) ++ ("#\x7b" ++ n ++ "\x7d").data ++ ('"' :: b) := by
      rw [quotedPat_decomp]
      simp
    have e2 : a ++ ("\"\\(" ++ n ++ ")\"").data ++ b =
        (a ++ ['"']) ++ ("\\(" ++ n ++ ")").data ++ ('"' :: b) := by
      rw [quotedInterp_decomp]
      simp
    rw [e1, e2]
    exact substSwift_single n d (a ++ ['"']) ('"' :: b) hpre hb

/-- Witness for C4 amended at concrete one-occurrence commands. -/
theorem C4_amended_witness :
    (substituteOsa [("path", Default.str "/tmp")]
        (String.mk ("do shell script ".data
          ++ ("\"#\x7b" ++ "path" ++ "\x7d\"").data ++ "".data)) =
      String.mk ("do shell script ".data ++ "path".data ++ "".data))
    ∧ (substituteSwift [("path", Default.str "/tmp")]
        (String.mk ("log ".data ++ ("#\x7b" ++ "path" ++ "\x7d").data ++ "".data)) =
      String.mk ("log ".data ++ ("\\(" ++ "path" ++ ")").data ++ "".data)) :=
  ⟨C4_amended.1 "path" (Default.str "/tmp") "do shell script ".data "".data
      (by decide) (by decide) (by decide),
   C4_amended.2.2.1 "path" (Default.str "/tmp") "log ".data "".data
      (by decide) (by decide)⟩

/-! ### Association-map lemmas for the duplicate checker -/

section AssocLemmas

variable {κ α : Type} [DecidableEq κ]

lemma assocGet_addLoc (m : List (κ × List α)) (k k' : κ) (a : α) :
    assocGet (addLoc m k a) k' =
      if k' = k then assocGet m k' ++ [a] else assocGet m k' := by
  induction m with
  | nil =>
    by_cases h : k' = k
    · simp [addLoc, assocGet, h]
    · simp [addLoc, assocGet, h, Ne.symm h]
  | cons e rest ih =>
    obtain ⟨k0, ls⟩ := e
    by_cases h0 : k0 = k
    · subst h0
      by_cases h : k' = k0
      · simp [addLoc, assocGet, h]
      · simp [addLoc, assocGet, h, Ne.symm h]
    · by_cases h : k' = k0
      · subst h
        simp [addLoc, assocGet, h0, Ne.symm h0]
      · simp [addLoc, assocGet, h0, h, Ne.symm h, ih]

lemma keys_addLoc (m : List (κ × List α)) (k : κ) (a : α) :
    (addLoc m k a).map Prod.fst =
      if k ∈ m.map Prod.fst then m.map Prod.fst else m.map Prod.fst ++ [k] := by
  induction m with
  | nil => simp [addLoc]
  | cons e rest ih =>
    obtain ⟨k0, ls⟩ := e
    by_cases h : k0 = k
    · subst h
      simp [addLoc]
    · simp only [addLoc, if_neg h, List.map_cons, List.mem_cons, ih]
      by_cases hk : k ∈ rest.map Prod.fst
      · simp [hk, Ne.symm h]
      · simp [hk, Ne.symm h]

lemma nodup_keys_addLoc (m : List (κ × List α)) (k : κ) (a : α)
    (h : (m.map Prod.fst).Nodup) : ((addLoc m k a).map Prod.fst).Nodup := by
  rw [keys_addLoc]
  by_cases hk : k ∈ m.map Prod.fst
  · simpa [hk] using h
  · simp [hk, List.nodup_append, h]

lemma mem_assoc_of_nodup (m : List (κ × List α))
    (h : (m.map Prod.fst).Nodup) (e : κ × List α) (he : e ∈ m) :
    e.2 = assocGet m e.1 := by
  induction m with
  | nil => cases he
  | cons e0 rest ih =>
    obtain ⟨k0, ls⟩ := e0
    simp only [List.map_cons, List.nodup_cons] at h
    rcases List.mem_cons.mp he with he0 | he1
    · subst he0
      simp [assocGet]
    · have hne : ¬k0 = e.1 := by
        intro hh
        exact h.1 (hh ▸ (List.mem_map.mpr ⟨e, he1, rfl⟩))
      simp [assocGet, hne, ih h.2 he1]

lemma assocGet_foldl (ps : List (κ × α)) :
    ∀ (m : List (κ × List α)) (k : κ),
      assocGet (ps.foldl (fun m p => addLoc m p.1 p.2) m) k =
        assocGet m k ++ (ps.filter fun p => decide (p.1 = k)).map Prod.snd := by
  induction ps with
  | nil => simp
  | cons p ps ih =>
    intro m k
    simp only [List.foldl_cons]
    rw [ih, assocGet_addLoc]
    by_cases h : k = p.1
    · simp [List.filter_cons, h, List.append_assoc]
    · simp [List.filter_cons, h, Ne.symm h]

lemma nodup_keys_foldl (ps : List (κ × α)) :
    ∀ (m : List (κ × List α)), (m.map Prod.fst).Nodup →
      ((ps.foldl (fun m p => addLoc m p.1 p.2) m).map Prod.fst).Nodup := by
  induction ps with
  | nil => intro m h; exact h
  | cons p ps ih =>
    intro m h
    exact ih _ (nodup_keys_addLoc m p.1 p.2 h)

lemma keys_foldl_sub (ps : List (κ × α)) :
    ∀ (m : List (κ × List α)) (k : κ),
      k ∈ (ps.foldl (fun m p => addLoc m p.1 p.2) m).map Prod.fst →
      k ∈ m.map Prod.fst ∨ k ∈ ps.map Prod.fst := by
  induction ps with
  | nil => intro m k h; exact Or.inl h
  | cons p ps ih =>
    intro m k h
    rcases ih _ k h with h1 | h1
    · rw [keys_addLoc] at h1
      by_cases hk : p.1 ∈ m.map Prod.fst
      · simp only [hk, if_true] at h1
        exact Or.inl h1
      · simp only [hk, if_false, List.mem_append, List.mem_singleton] at h1
        rcases h1 with h1 | h1
        · exact Or.inl h1
        · exact Or.inr (by simp [h1])
    · exact Or.inr (by simp [h1])

lemma keys_foldl_mem (ps : List (κ × α)) :
    ∀ (m : List (κ × List α)) (k : κ),
      k ∈ m.map Prod.fst ∨ k ∈ ps.map Prod.fst →
      k ∈ (ps.foldl (fun m p => addLoc m p.1 p.2) m).map Prod.fst := by
  induction ps with
  | nil => intro m k h; simpa using h
  | cons p ps ih =>
    intro m k h
    simp only [List.foldl_cons]
    have hstep : ∀ k', k' ∈ m.map Prod.fst ∨ k' = p.1 →
        k' ∈ (addLoc m p.1 p.2).map Prod.fst := by
      intro k' hk'
      rw [keys_addLoc]
      by_cases hk : p.1 ∈ m.map Prod.fst
      · rcases hk' with hk' | hk'
        · simp [hk, hk']
        · simp [hk, hk' ▸ hk]
      · rcases hk' with hk' | hk'
        · simp [hk, hk']
        · simp [hk, hk']
    rcases h with h | h
    · exact ih _ k (Or.inl (hstep k (Or.inl h)))
    · rcases List.mem_cons.mp h with h | h
      · exact ih _ k (Or.inl (hstep k (Or.inr h)))
      · exact ih _ k (Or.inr h)

lemma filter_singleton_of_keys (m : List (κ × List α))
    (h : (m.map Prod.fst).Nodup) (p : κ × List α → Bool) (v : κ) (ls : List α)
    (hin : (v, ls) ∈ m) (hv : ∀ e ∈ m, p e = true ↔ e.1 = v) :
    m.filter p = [(v, ls)] := by
  induction m with
  | nil => cases hin
  | cons e0 rest ih =>
    simp only [List.map_cons, List.nodup_cons] at h
    by_cases he : e0.1 = v
    · have hrest : ∀ x ∈ rest, p x = false := by
        intro x hx
        by_contra hpx
        have : p x = true := by
          cases hb : p x
          · exact absurd hb hpx
          · rfl
        have hxv := (hv x (List.mem_cons_of_mem _ hx)).mp this
        refine h.1 ?_
        rw [he, ← hxv]
        exact List.mem_map.mpr ⟨x, hx, rfl⟩
      have he0 : e0 = (v, ls) := by
        rcases List.mem_cons.mp hin with h1 | h1
        · exact h1.symm
        · exact absurd ((hv (v, ls) (List.mem_cons_of_mem _ h1)).mpr rfl)
            (by simp [hrest (v, ls) h1])
      rw [List.filter_cons, if_pos ((hv e0 (List.mem_cons_self _ _)).mpr he),
        List.filter_eq_nil_iff.mpr (by intro x hx; simp [hrest x hx]), he0]
    · have hin1 : (v, ls) ∈ rest := by
        rcases List.mem_cons.mp hin with h1 | h1
        · exact absurd (congrArg Prod.fst h1.symm) he
        · exact h1
      rw [List.filter_cons, if_neg (by simp [(hv e0 (List.mem_cons_self _ _)), he])]
      exact ih h.2 hin1 (fun e hx => hv e (List.mem_cons_of_mem _ hx))

end AssocLemmas


/-! ### Claim C7 -/

/-- C7: for every corpus whose scan contains exactly two guid lines
carrying the same literal identifier value `v` (both in the same file
`f`, at lines `n1` and `n2`) while every other well-formed identifier
is distinct, `check_for_duplicate_guids` reports exactly one
duplicate-identifier violation, for `v`, listing both locations in
order, and its has-duplicates flag is set. -/
theorem C7_two_duplicates (files : List (String × List Line)) (v : Line)
    (f : String) (n1 n2 : Nat) (pre mid post : List (Line × String × Nat))
    (hscan : guidScan files = pre ++ (v, (f, n1)) :: mid ++ (v, (f, n2)) :: post)
    (hv : ∀ p ∈ pre ++ mid ++ post, ¬p.1 = v)
    (hothers : ((pre ++ mid ++ post).map Prod.fst).Nodup) :
    duplicateGuids files = [(v, [(f, n1), (f, n2)])]
    ∧ (checkForDuplicateGuids files).1 = true := by
  have hvf : (guidScan files).filter (fun p => decide (p.1 = v)) =
      [(v, (f, n1)), (v, (f, n2))] := by
    have hp1 : pre.filter (fun p => decide (p.1 = v)) = [] :=
      List.filter_eq_nil_iff.mpr fun p hp => by
        simp [hv p (by simp [hp])]
    have hp2 : mid.filter (fun p => decide (p.1 = v)) = [] :=
      List.filter_eq_nil_iff.mpr fun p hp => by
        simp [hv p (by simp [hp])]
    have hp3 : post.filter (fun p => decide (p.1 = v)) = [] :=
      List.filter_eq_nil_iff.mpr fun p hp => by
        simp [hv p (by simp [hp])]
    rw [hscan]
    simp [List.filter_append, List.filter_cons, hp1, hp2, hp3]
  have hnodup : ((guidLocations files).map Prod.fst).Nodup :=
    nodup_keys_foldl _ [] (by simp)
  have hget : ∀ k, assocGet (guidLocations files) k =
      ((guidScan files).filter fun p => decide (p.1 = k)).map Prod.snd := by
    intro k
    have := assocGet_foldl (guidScan files) [] k
    simpa [guidLocations, buildMap, assocGet] using this
  have hfilterle : ∀ (l : List Line), l.Nodup → ∀ k : Line,
      (l.filter (fun x => decide (x = k))).length ≤ 1 := by
    intro l hl k
    induction l with
    | nil => simp
    | cons x xs ih =>
      simp only [List.nodup_cons] at hl
      rw [List.filter_cons]
      by_cases hx : x = k
      · subst hx
        have hnil : xs.filter (fun y => decide (y = x)) = [] :=
          List.filter_eq_nil_iff.mpr fun y hy => by
            simp only [decide_eq_true_eq]
            intro he
            exact hl.1 (he ▸ hy)
        simp [hnil]
      · simp only [hx, decide_False]
        exact ih hl.2
  have hkle : ∀ k, ¬k = v →
      ((guidScan files).filter (fun p => decide (p.1 = k))).length ≤ 1 := by
    intro k hk
    have heq : ((guidScan files).filter (fun p => decide (p.1 = k))).length =
        ((pre ++ mid ++ post).filter (fun p => decide (p.1 = k))).length := by
      rw [hscan]
      simp [List.filter_append, List.filter_cons, hk, Ne.symm hk,
        List.length_append]
    rw [heq]
    have hmapfilter :
        ((pre ++ mid ++ post).map Prod.fst).filter (fun x => decide (x = k)) =
          ((pre ++ mid ++ post).filter (fun p => decide (p.1 = k))).map Prod.fst := by
      rw [List.filter_map]
      rfl
    have := hfilterle _ hothers k
    rw [hmapfilter, List.length_map] at this
    exact this
  have hvmem : (v, [(f, n1), (f, n2)]) ∈ guidLocations files := by
    have hkey : v ∈ (guidLocations files).map Prod.fst := by
      apply keys_foldl_mem
      refine Or.inr ?_
      rw [hscan]
      simp
    obtain ⟨e, he, hke⟩ := List.mem_map.mp hkey
    have := mem_assoc_of_nodup _ hnodup e he
    rw [hget, hke, hvf] at this
    have he2 : e = (v, [(f, n1), (f, n2)]) := by
      obtain ⟨e1, e2⟩ := e
      simp at hke this
      rw [hke, this]
    rwa [he2] at he
  have hiff : ∀ e ∈ guidLocations files,
      (decide (1 < e.2.length) = true) ↔ e.1 = v := by
    intro e he
    constructor
    · intro hlen
      by_contra hne
      have hle := hkle e.1 hne
      have := mem_assoc_of_nodup _ hnodup e he
      rw [hget] at this
      rw [this] at hlen
      simp at hlen
      omega
    · intro hev
      have := mem_assoc_of_nodup _ hnodup e he
      rw [hget, hev, hvf] at this
      rw [this]
      simp
  have hdup : duplicateGuids files = [(v, [(f, n1), (f, n2)])] := by
    unfold duplicateGuids
    exact filter_singleton_of_keys _ hnodup _ v _ hvmem hiff
  refine ⟨hdup, ?_⟩
  unfold checkForDuplicateGuids
  simp [hdup]

/-- Witness for C7 at the spec example identifier
`11111111-1111-7111-8111-111111111111`, shared by the second and
fourth line of one file. -/
theorem C7_two_duplicates_witness :
    duplicateGuids
        [("f", ["- name: t1".data,
                "  guid: 11111111-1111-7111-8111-111111111111".data,
                "- name: t2".data,
                "  guid: 11111111-1111-7111-8111-111111111111".data,
                "- name: t3".data,
                "  guid: 22222222-2222-7222-8222-222222222222".data])] =
      [("11111111-1111-7111-8111-111111111111".data, [("f", 2), ("f", 4)])]
    ∧ (checkForDuplicateGuids
        [("f", ["- name: t1".data,
                "  guid: 11111111-1111-7111-8111-111111111111".data,
                "- name: t2".data,
                "  guid: 11111111-1111-7111-8111-111111111111".data,
                "- name: t3".data,
                "  guid: 22222222-2222-7222-8222-222222222222".data])]).1 = true :=
  C7_two_duplicates _ "11111111-1111-7111-8111-111111111111".data "f" 2 4
    [] [] [("22222222-2222-7222-8222-222222222222".data, "f", 6)]
    (by rfl) (by decide) (by decide)

/-! ### Claim C10, amended -/

/-- C10 amended: a `guid:` line is overwritten by the fill step exactly
when the text after `guid:` does not begin, after optional blanks, with
a version-7 variant-[89ab] shaped uuid prefix; a line whose remainder
begins with such a prefix is left alone even if trailing text follows.
When a line is overwritten, the entire remainder after the captured
`guid:` prefix is discarded and replaced by a space and the freshly
picked identifier. -/
theorem C10_amended (l p rest : Line) (seen supply : List Line)
    (h : guidColonSplit l = some (p, rest)) :
    (v7After rest = true → fillGuids seen supply [l] = some ([l], seen, supply, []))
    ∧ (v7After rest = false → ∀ g sup0, pickFresh seen supply = some (g, sup0) →
        fillGuids seen supply [l] = some ([p ++ ' ' :: g],
          addSeen (lowL g) seen, sup0, [g])) := by
  constructor
  · intro hv
    simp [fillGuids, h, hv]
  · intro hv g sup0 hp
    simp [fillGuids, h, hv, hp]

/-- Witness for C10 amended: a version-4 value is overwritten wholesale
and a version-7 value is kept. -/
theorem C10_amended_witness :
    fillGuids [] ["33333333-3333-7333-8333-333333333333".data]
        ["  guid: 123e4567-e89b-42d3-a456-426614174000".data] =
      some (["  guid: 33333333-3333-7333-8333-333333333333".data],
        ["33333333-3333-7333-8333-333333333333".data], [], 
        ["33333333-3333-7333-8333-333333333333".data])
    ∧ fillGuids [] ["33333333-3333-7333-8333-333333333333".data]
        ["  guid: 00112233-4455-7677-8899-aabbccddeeff".data] =
      some (["  guid: 00112233-4455-7677-8899-aabbccddeeff".data], [],
        ["33333333-3333-7333-8333-333333333333".data], []) :=
  ⟨(C10_amended "  guid: 123e4567-e89b-42d3-a456-426614174000".data
      "  guid:".data " 123e4567-e89b-42d3-a456-426614174000".data
      [] ["33333333-3333-7333-8333-333333333333".data] (by decide)).2
      (by decide) "33333333-3333-7333-8333-333333333333".data [] (by decide),
   (C10_amended "  guid: 00112233-4455-7677-8899-aabbccddeeff".data
      "  guid:".data " 00112233-4455-7677-8899-aabbccddeeff".data
      [] ["33333333-3333-7333-8333-333333333333".data] (by decide)).1
      (by decide)⟩

/-! ### Lemmas on the identifier assigner -/

/-- Lower-casing an upper-case letter adds 32 to its code point. -/
lemma lowChar_toNat_of_upper (c : Char) (h1 : 'A' ≤ c) (h2 : c ≤ 'Z') :
    (lowChar c).toNat = c.toNat + 32 := by
  unfold lowChar
  rw [if_pos ⟨h1, h2⟩]
  have hn1 : (65 : Nat) ≤ c.toNat := h1
  have hn2 : c.toNat ≤ 90 := h2
  unfold Char.ofNat
  split
  · rfl
  · omega

/-- A lower-cased character is never an upper-case letter. -/
lemma noUpperC_lowChar (c : Char) : noUpperC (lowChar c) = true := by
  by_cases h : 'A' ≤ c ∧ c ≤ 'Z'
  · have ht := lowChar_toNat_of_upper c h.1 h.2
    have hn2 : c.toNat ≤ 90 := h.2
    have hgt : ¬(lowChar c ≤ 'Z') := by
      intro hc
      have hc2 : (lowChar c).toNat ≤ 90 := hc
      have hc3 : (65 : Nat) ≤ c.toNat := h.1
      omega
    simp [noUpperC, hgt]
  · have he : lowChar c = c := by
      unfold lowChar
      rw [if_neg h]
    rw [he]
    simp only [noUpperC, Bool.not_eq_true']
    rw [Bool.and_eq_false_iff]
    rcases Decidable.not_and_iff_or_not.mp h with h1 | h1
    · exact Or.inl (by simp [h1])
    · exact Or.inr (by simp [h1])

/-- A lower-cased string has no upper-case letters. -/
lemma noUpperL_lowL (l : Line) : noUpperL (lowL l) = true := by
  simp only [noUpperL, lowL, List.all_map]
  exact List.all_eq_true.mpr fun c _ => noUpperC_lowChar c

/-- The retry loop returns an identifier that is fresh for the
seen-set (up to case) and drawn from the supply, and leaves a suffix of
the supply. -/
lemma pickFresh_spec (seen : List Line) :
    ∀ (supply : List Line) (g : Line) (sup0 : List Line),
      pickFresh seen supply = some (g, sup0) →
      lowL g ∉ seen ∧ g ∈ supply ∧ ∀ x ∈ sup0, x ∈ supply := by
  intro supply
  induction supply with
  | nil => intro g sup0 h; cases h
  | cons a gs ih =>
    intro g sup0 h
    rw [pickFresh] at h
    by_cases ha : lowL a ∈ seen
    · rw [if_pos ha] at h
      obtain ⟨h1, h2, h3⟩ := ih g sup0 h
      exact ⟨h1, List.mem_cons_of_mem _ h2,
        fun x hx => List.mem_cons_of_mem _ (h3 x hx)⟩
    · rw [if_neg ha] at h
      injection h with h1
      cases h1
      exact ⟨ha, List.mem_cons_self _ _, fun x hx => List.mem_cons_of_mem _ hx⟩

/-- Membership in the seen-set after one `add`. -/
lemma mem_addSeen (g : Line) (s : List Line) (x : Line) :
    x ∈ addSeen g s ↔ x ∈ s ∨ x = g := by
  unfold addSeen
  by_cases h : g ∈ s
  · rw [if_pos h]
    constructor
    · exact Or.inl
    · rintro (hx | rfl)
      · exact hx
      · exact h
  · rw [if_neg h]
    rw [List.mem_cons]
    tauto

/-- `FillRel` is monotone in the supply. -/
lemma fillRel_mono (sup0 supply : List Line) (hsub : ∀ x ∈ sup0, x ∈ supply)
    (a b : Line) (h : FillRel sup0 a b) : FillRel supply a b := by
  cases h with
  | keep hk => exact FillRel.keep _ hk
  | repl p rest g hg hv hmem => exact FillRel.repl _ p rest g hg hv (hsub g hmem)

/-- Master lemma on the fill pass: the seen-set grows, every generated
identifier is fresh for the entering seen-set (up to case), drawn from
the supply and recorded lower-cased; the generated identifiers are
pairwise distinct up to case; the remaining supply is drawn from the
supply; and the output lines relate to the input lines pointwise by
`FillRel`. -/
lemma fillGuids_spec :
    ∀ (ls : List Line) (seen supply : List Line)
      (out s1 sup1 gens : List Line),
      fillGuids seen supply ls = some (out, s1, sup1, gens) →
      (∀ x ∈ seen, x ∈ s1)
      ∧ (∀ g ∈ gens, lowL g ∉ seen ∧ g ∈ supply ∧ lowL g ∈ s1)
      ∧ (∀ x ∈ s1, x ∈ seen ∨ ∃ g ∈ gens, x = lowL g)
      ∧ (gens.map lowL).Nodup
      ∧ (∀ x ∈ sup1, x ∈ supply)
      ∧ List.Forall₂ (FillRel supply) ls out := by
  intro ls
  induction ls with
  | nil =>
    intro seen supply out s1 sup1 gens h
    rw [fillGuids] at h
    injection h with h1
    cases h1
    exact ⟨fun x hx => hx, by simp, fun x hx => Or.inl hx, by simp,
      fun x hx => hx, List.Forall₂.nil⟩
  | cons l ls ih =>
    intro seen supply out s1 sup1 gens h
    rw [fillGuids] at h
    cases hsplit : guidColonSplit l with
    | none =>
      simp only [hsplit] at h
      cases hrec : fillGuids seen supply ls with
      | none => rw [hrec] at h; cases h
      | some r =>
        obtain ⟨out0, s10, sup10, gens0⟩ := r
        simp only [hrec] at h
        injection h with h1
        cases h1
        obtain ⟨a1, a2, a3, a4, a5, a6⟩ := ih _ _ _ _ _ _ hrec
        refine ⟨a1, a2, a3, a4, a5, List.Forall₂.cons (FillRel.keep l ?_) a6⟩
        intro p rest hpr
        rw [hsplit] at hpr
        cases hpr
    | some pr =>
      obtain ⟨p, rest⟩ := pr
      simp only [hsplit] at h
      by_cases hv : v7After rest = true
      · simp only [hv, if_true] at h
        cases hrec : fillGuids seen supply ls with
        | none => rw [hrec] at h; cases h
        | some r =>
          obtain ⟨out0, s10, sup10, gens0⟩ := r
          simp only [hrec] at h
          injection h with h1
          cases h1
          obtain ⟨a1, a2, a3, a4, a5, a6⟩ := ih _ _ _ _ _ _ hrec
          refine ⟨a1, a2, a3, a4, a5, List.Forall₂.cons (FillRel.keep l ?_) a6⟩
          intro p0 rest0 hpr
          rw [hsplit] at hpr
          injection hpr with hpr2
          cases hpr2
          exact hv
      · rw [Bool.not_eq_true] at hv
        simp only [hv, Bool.false_eq_true, if_false] at h
        cases hpick : pickFresh seen supply with
        | none => rw [hpick] at h; cases h
        | some gp =>
          obtain ⟨g, sup0⟩ := gp
          simp only [hpick] at h
          cases hrec : fillGuids (addSeen (lowL g) seen) sup0 ls with
          | none => rw [hrec] at h; cases h
          | some r =>
            obtain ⟨out0, s10, sup10, gens0⟩ := r
            simp only [hrec] at h
            injection h with h1
            cases h1
            obtain ⟨a1, a2, a3, a4, a5, a6⟩ :=
              ih _ _ _ _ _ _ hrec
            obtain ⟨pf1, pf2, pf3⟩ := pickFresh_spec seen supply g sup0 hpick
            refine ⟨?_, ?_, ?_, ?_, ?_, ?_⟩
            · intro x hx
              exact a1 x ((mem_addSeen _ _ _).mpr (Or.inl hx))
            · intro g' hg'
              rcases List.mem_cons.mp hg' with rfl | hg1
              · exact ⟨pf1, pf2, a1 _ ((mem_addSeen _ _ _).mpr (Or.inr rfl))⟩
              · obtain ⟨b1, b2, b3⟩ := a2 g' hg1
                exact ⟨fun hx => b1 ((mem_addSeen _ _ _).mpr (Or.inl hx)),
                  pf3 g' b2, b3⟩
            · intro x hx
              rcases a3 x hx with hx1 | ⟨g', hg', hx2⟩
              · rcases (mem_addSeen _ _ _).mp hx1 with hx2 | hx2
                · exact Or.inl hx2
                · exact Or.inr ⟨g, List.mem_cons_self _ _, hx2⟩
              · exact Or.inr ⟨g', List.mem_cons_of_mem _ hg', hx2⟩
            · rw [List.map_cons, List.nodup_cons]
              refine ⟨?_, a4⟩
              intro hmem
              obtain ⟨g', hg', he⟩ := List.mem_map.mp hmem
              obtain ⟨b1, _, _⟩ := a2 g' hg'
              exact b1 (he ▸ (mem_addSeen _ _ _).mpr (Or.inr rfl))
            · intro x hx
              exact pf3 x (a5 x hx)
            · exact List.Forall₂.cons
                (FillRel.repl l p rest g hsplit hv pf2)
                (a6.imp (fillRel_mono sup0 supply pf3))

lemma mem_foldl_addSeen_left (gs : List Line) :
    ∀ (s : List Line) (x : Line), x ∈ s →
      x ∈ gs.foldl (fun s g => addSeen g s) s := by
  induction gs with
  | nil => intro s x hx; exact hx
  | cons a gs ih =>
    intro s x hx
    exact ih _ x ((mem_addSeen a s x).mpr (Or.inl hx))

lemma mem_foldl_addSeen_self (gs : List Line) :
    ∀ (s : List Line) (g : Line), g ∈ gs →
      g ∈ gs.foldl (fun s g => addSeen g s) s := by
  induction gs with
  | nil => intro s g h; cases h
  | cons a gs ih =>
    intro s g h
    rcases List.mem_cons.mp h with rfl | h1
    · exact mem_foldl_addSeen_left gs _ g ((mem_addSeen g s g).mpr (Or.inr rfl))
    · exact ih _ g h1

lemma mem_foldl_addSeen_inv (gs : List Line) :
    ∀ (s : List Line) (x : Line),
      x ∈ gs.foldl (fun s g => addSeen g s) s → x ∈ s ∨ x ∈ gs := by
  induction gs with
  | nil => intro s x hx; exact Or.inl hx
  | cons a gs ih =>
    intro s x hx
    rcases ih _ x hx with h1 | h1
    · rcases (mem_addSeen a s x).mp h1 with h2 | h2
      · exact Or.inl h2
      · exact Or.inr (by simp [h2])
    · exact Or.inr (List.mem_cons_of_mem _ h1)

lemma guidLineValue_noUpper (l g : Line) (h : guidLineValue l = some g) :
    noUpperL g = true := by
  unfold guidLineValue at h
  cases h1 : matchCI "guid:".data (l.dropWhile isSpTabC) with
  | none => rw [h1] at h; cases h
  | some r =>
    simp only [h1] at h
    cases h2 : chompUuid (r.dropWhile isSpTabC) with
    | none => simp only [h2] at h; cases h
    | some rest =>
      simp only [h2] at h
      split at h
      · injection h with h4
        rw [← h4]
        exact noUpperL_lowL _
      · cases h

lemma generate_spec (lines seen supply out : List Line) (m : Bool)
    (s1 sup1 gens : List Line)
    (h : generateGuidsForYaml lines seen supply = some (out, m, s1, sup1, gens)) :
    (∀ x ∈ seen, x ∈ s1)
    ∧ (∀ g ∈ extractGuids lines, g ∈ s1)
    ∧ (∀ g ∈ gens, lowL g ∉ seen ∧ (∀ v ∈ extractGuids lines, ¬lowL g = v)
        ∧ g ∈ supply ∧ lowL g ∈ s1)
    ∧ (gens.map lowL).Nodup
    ∧ (∀ x ∈ sup1, x ∈ supply)
    ∧ (∀ x ∈ s1, x ∈ seen ∨ noUpperL x = true) := by
  unfold generateGuidsForYaml at h
  cases hfill : fillGuids (seedSeen lines seen) supply (insertGuidLines lines) with
  | none => rw [hfill] at h; cases h
  | some r =>
    obtain ⟨out0, s10, sup10, gens0⟩ := r
    rw [hfill] at h
    injection h with h1
    cases h1
    obtain ⟨a1, a2, a3, a4, a5, -⟩ := fillGuids_spec _ _ _ _ _ _ _ hfill
    refine ⟨?_, ?_, ?_, a4, a5, ?_⟩
    · intro x hx
      exact a1 x (mem_foldl_addSeen_left _ _ x hx)
    · intro g hg
      exact a1 g (mem_foldl_addSeen_self _ _ g hg)
    · intro g hg
      obtain ⟨b1, b2, b3⟩ := a2 g hg
      refine ⟨fun hx => b1 (mem_foldl_addSeen_left _ _ _ hx), ?_, b2, b3⟩
      intro v hv he
      exact b1 (he ▸ mem_foldl_addSeen_self _ _ v hv)
    · intro x hx
      rcases a3 x hx with h1 | ⟨g, _, h2⟩
      · rcases mem_foldl_addSeen_inv _ _ x h1 with h2 | h2
        · exact Or.inl h2
        · obtain ⟨l0, -, h3⟩ := List.mem_filterMap.mp h2
          exact Or.inr (guidLineValue_noUpper l0 x h3)
      · exact Or.inr (h2 ▸ noUpperL_lowL g)

/-- Per-file freshness invariant of the run loop: each identifier
generated for the i-th file is fresh (up to case) for the entering
seen-set, for every well-formed identifier of the files up to and
including the i-th, and for every identifier generated for an earlier
file; identifiers generated for one file are pairwise distinct up to
case. -/
lemma addGuidsRunAux_spec :
    ∀ (files : List (List Line)) (seen supply : List Line)
      (files1 : List (List Line)) (n : Nat) (s2 sup2 : List Line)
      (gl : List (List Line)),
      addGuidsRunAux seen supply files = some (files1, n, s2, sup2, gl) →
      gl.length = files.length
      ∧ (∀ i : Nat, ((gl.getD i []).map lowL).Nodup)
      ∧ (∀ i : Nat, ∀ g ∈ gl.getD i [],
          lowL g ∉ seen
          ∧ (∀ f ∈ files.take (i + 1), lowL g ∉ extractGuids f)
          ∧ (∀ j : Nat, j < i → ∀ g' ∈ gl.getD j [], ¬lowL g = lowL g')) := by
  intro files
  induction files with
  | nil =>
    intro seen supply files1 n s2 sup2 gl h
    rw [addGuidsRunAux] at h
    injection h with h1
    cases h1
    refine ⟨rfl, ?_, ?_⟩
    · intro i
      simp
    · intro i g hg
      simp at hg
  | cons f fs ih =>
    intro seen supply files1 n s2 sup2 gl h
    rw [addGuidsRunAux] at h
    cases hgen : generateGuidsForYaml f seen supply with
    | none => rw [hgen] at h; cases h
    | some r =>
      obtain ⟨f1, m, s1, sup1, gens⟩ := r
      simp only [hgen] at h
      cases hrec : addGuidsRunAux s1 sup1 fs with
      | none => simp only [hrec] at h; cases h
      | some r2 =>
        obtain ⟨fs1, n1, s2x, sup2x, gl1⟩ := r2
        simp only [hrec] at h
        injection h with h1
        cases h1
        obtain ⟨gs1, gs2, gs3, gs4, gs5, -⟩ := generate_spec _ _ _ _ _ _ _ _ hgen
        obtain ⟨ihlen, ihnodup, ihmain⟩ := ih _ _ _ _ _ _ _ hrec
        refine ⟨by simp [ihlen], ?_, ?_⟩
        · intro i
          cases i with
          | zero => simpa using gs4
          | succ i => simpa using ihnodup i
        · intro i g hg
          cases i with
          | zero =>
            rw [List.getD_cons_zero] at hg
            obtain ⟨b1, b2, -, -⟩ := gs3 g hg
            refine ⟨b1, ?_, ?_⟩
            · intro f0 hf0
              simp only [List.take_succ_cons, List.take_zero] at hf0
              rcases List.mem_cons.mp hf0 with rfl | hf1
              · intro hm
                exact b2 (lowL g) hm rfl
              · cases hf1
            · intro j hj
              omega
          | succ i =>
            rw [List.getD_cons_succ] at hg
            obtain ⟨b1, b2, b3⟩ := ihmain i g hg
            refine ⟨fun hx => b1 (gs1 _ hx), ?_, ?_⟩
            · intro f0 hf0
              simp only [List.take_succ_cons] at hf0
              rcases List.mem_cons.mp hf0 with rfl | hf1
              · intro hm
                exact b1 (gs2 _ hm)
              · exact b2 f0 hf1
            · intro j hj g' hg'
              cases j with
              | zero =>
                rw [List.getD_cons_zero] at hg'
                obtain ⟨-, -, -, c4⟩ := gs3 g' hg'
                intro he
                exact b1 (he ▸ c4)
              | succ j =>
                rw [List.getD_cons_succ] at hg'
                exact b3 j (by omega) g' hg'

/-! ### Claim C2, amended -/

/-- C2 amended: the shared seen-set is built incrementally, so a newly
synthesized identifier is only guaranteed to differ from the
well-formed identifiers of the current file and of files processed
earlier in the run, and from every identifier synthesized earlier in
the run — not from identifiers of files not yet processed (see the
counterexample).  For every run: the per-file generated lists align
with the files; each identifier generated for the i-th file differs
(up to case) from every well-formed identifier of files 0..i; the
identifiers generated for one file are pairwise distinct up to case;
and identifiers generated for distinct files differ up to case. -/
theorem C2_amended (files : List (List Line)) (supply : List Line)
    (files1 : List (List Line)) (n : Nat) (s2 sup2 : List Line)
    (gl : List (List Line))
    (h : addGuidsToYamlFiles files supply = some (files1, n, s2, sup2, gl)) :
    gl.length = files.length
    ∧ (∀ i : Nat, ∀ g ∈ gl.getD i [],
        ∀ f ∈ files.take (i + 1), lowL g ∉ extractGuids f)
    ∧ (∀ i : Nat, ((gl.getD i []).map lowL).Nodup)
    ∧ (∀ i j : Nat, j < i → ∀ g ∈ gl.getD i [], ∀ g' ∈ gl.getD j [],
        ¬lowL g = lowL g') := by
  obtain ⟨h1, h2, h3⟩ := addGuidsRunAux_spec files [] supply files1 n s2 sup2 gl h
  exact ⟨h1, fun i g hg => (h3 i g hg).2.1, h2,
    fun i j hj g hg g' hg' => (h3 i g hg).2.2 j hj g' hg'⟩

/-- Witness for C2 amended on a one-file corpus: the identifier
assigned to the file is fresh for the file. -/
theorem C2_amended_witness :
    lowL "77777777-7777-7777-8777-777777777777".data ∉
      extractGuids ["- name: a".data, "  guid:".data] :=
  ((C2_amended [["- name: a".data, "  guid:".data]]
      ["77777777-7777-7777-8777-777777777777".data]
      [["- name: a".data, "  guid: 77777777-7777-7777-8777-777777777777".data]]
      1 ["77777777-7777-7777-8777-777777777777".data] []
      [["77777777-7777-7777-8777-777777777777".data]] (by rfl)).2.1
    0 "77777777-7777-7777-8777-777777777777".data (by decide)
    ["- name: a".data, "  guid:".data] (by decide))

/-! ### Claim C9 -/

/-- C9: identifier comparison is case-insensitive throughout — every
key of the duplicate-checker location multimap is lower-cased, a
candidate identifier whose lower-casing is already in the seen-set is
skipped by the retry loop, every identifier recorded into the seen-set
by the assigner is lower-cased, and two identifiers differing only in
letter case are reported as one duplicate. -/
theorem C9_case_insensitive :
    (∀ (files : List (String × List Line)) (e : Line × List (String × Nat)),
      e ∈ guidLocations files → noUpperL e.1 = true)
    ∧ (∀ (seen : List Line) (g : Line) (gs : List Line),
        lowL g ∈ seen → pickFresh seen (g :: gs) = pickFresh seen gs)
    ∧ (∀ (lines seen supply out : List Line) (m : Bool) (s1 sup1 gens : List Line),
        generateGuidsForYaml lines seen supply = some (out, m, s1, sup1, gens) →
        ∀ x ∈ s1, x ∈ seen ∨ noUpperL x = true)
    ∧ checkForDuplicateGuids
        [("f", ["guid: ABCDABCD-1111-7111-8111-111111111111".data,
                "guid: abcdabcd-1111-7111-8111-111111111111".data])] =
      (true, [("abcdabcd-1111-7111-8111-111111111111".data,
        [("f", 1), ("f", 2)])]) := by
  refine ⟨?_, ?_, ?_, by rfl⟩
  · intro files e he
    have hk : e.1 ∈ (guidScan files).map Prod.fst := by
      rcases keys_foldl_sub (guidScan files) [] e.1
          (List.mem_map.mpr ⟨e, he, rfl⟩) with h1 | h1
      · simp at h1
      · exact h1
    obtain ⟨p, hp, hpe⟩ := List.mem_map.mp hk
    obtain ⟨lsf, hlsf, hplsf⟩ := List.mem_flatten.mp hp
    obtain ⟨fe, hfe, hfeq⟩ := List.mem_map.mp hlsf
    rw [← hfeq] at hplsf
    obtain ⟨q, hq, hq2⟩ := List.mem_filterMap.mp hplsf
    obtain ⟨g, hg, hgp⟩ := Option.map_eq_some'.mp hq2
    rw [← hpe, ← hgp]
    exact guidLineValue_noUpper _ _ hg
  · intro seen g gs h
    rw [pickFresh, if_pos h]
  · intro lines seen supply out m s1 sup1 gens h
    exact (generate_spec _ _ _ _ _ _ _ _ h).2.2.2.2.2

/-- Witness for C9 at concrete inputs: a multimap entry key is
lower-case, a case-colliding candidate is skipped, and a recorded
seen-set entry is lower-case. -/
theorem C9_case_insensitive_witness :
    noUpperL ("abcdabcd-1111-7111-8111-111111111111".data,
        [("f", 1), ("f", 2)]).1 = true
    ∧ pickFresh ["abcdabcd-1111-7111-8111-111111111111".data]
        ["ABCDABCD-1111-7111-8111-111111111111".data,
         "99999999-9999-7999-8999-999999999999".data] =
      pickFresh ["abcdabcd-1111-7111-8111-111111111111".data]
        ["99999999-9999-7999-8999-999999999999".data]
    ∧ ("77777777-7777-7777-8777-777777777777".data ∈ ([] : List Line)
        ∨ noUpperL "77777777-7777-7777-8777-777777777777".data = true) :=
  ⟨C9_case_insensitive.1
      [("f", ["guid: ABCDABCD-1111-7111-8111-111111111111".data,
              "guid: abcdabcd-1111-7111-8111-111111111111".data])]
      ("abcdabcd-1111-7111-8111-111111111111".data, [("f", 1), ("f", 2)])
      (by decide),
   C9_case_insensitive.2.1 ["abcdabcd-1111-7111-8111-111111111111".data]
      "ABCDABCD-1111-7111-8111-111111111111".data
      ["99999999-9999-7999-8999-999999999999".data] (by decide),
   C9_case_insensitive.2.2.1 ["- name: a".data, "  guid:".data] []
      ["77777777-7777-7777-8777-777777777777".data]
      ["- name: a".data, "  guid: 77777777-7777-7777-8777-777777777777".data]
      true ["77777777-7777-7777-8777-777777777777".data] []
      ["77777777-7777-7777-8777-777777777777".data] (by rfl)
      "77777777-7777-7777-8777-777777777777".data (by decide)⟩

/-! ### Idempotence of the identifier assigner (claim C5) -/

lemma matchCI_decomp : ∀ (ps l r : List Char), matchCI ps l = some r →
    ∃ w, l = w ++ r ∧ lowL w = lowL ps := by
  intro ps
  induction ps with
  | nil =>
    intro l r h
    rw [matchCI] at h
    injection h with h1
    exact ⟨[], by simp [h1], rfl⟩
  | cons p ps ih =>
    intro l r h
    cases l with
    | nil => rw [matchCI] at h; cases h
    | cons c cs =>
      rw [matchCI] at h
      by_cases hc : lowChar c = lowChar p
      · rw [if_pos hc] at h
        obtain ⟨w, hw1, hw2⟩ := ih cs r h
        refine ⟨c :: w, by simp [hw1], ?_⟩
        simp only [lowL, List.map_cons] at hw2 ⊢
        rw [hc, hw2]
      · rw [if_neg hc] at h; cases h

lemma matchCI_of_lowL : ∀ (ps w t : List Char), lowL w = lowL ps →
    matchCI ps (w ++ t) = some t := by
  intro ps
  induction ps with
  | nil =>
    intro w t h
    have hw : w = [] := by
      have := congrArg List.length h
      simpa [lowL] using this
    subst hw
    simp [matchCI]
  | cons p ps ih =>
    intro w t h
    cases w with
    | nil =>
      exfalso
      have := congrArg List.length h
      simp [lowL] at this
    | cons c cs =>
      simp only [lowL, List.map_cons, List.cons.injEq] at h
      simp only [List.cons_append, matchCI, h.1, if_true]
      exact ih cs t h.2

lemma sptab_dropWhile_append (st : Line) :
    ∀ (y : Line), (∀ c ∈ st, isSpTabC c = true) →
      (st ++ y).dropWhile isSpTabC = y.dropWhile isSpTabC := by
  induction st with
  | nil => intro y _; rfl
  | cons c cs ih =>
    intro y h
    rw [List.cons_append, List.dropWhile_cons, if_pos (by simp [h c (by simp)])]
    exact ih y fun c0 hc0 => h c0 (by simp [hc0])

lemma sptab_takeWhile_append (st : Line) :
    ∀ (y : Line), (∀ c ∈ st, isSpTabC c = true) →
      (st ++ y).takeWhile isSpTabC = st ++ y.takeWhile isSpTabC := by
  induction st with
  | nil => intro y _; rfl
  | cons c cs ih =>
    intro y h
    rw [List.cons_append, List.takeWhile_cons, if_pos (by simp [h c (by simp)])]
    rw [ih y fun c0 hc0 => h c0 (by simp [hc0])]
    rfl

lemma sptab_dropWhile_pyws_append (st : Line) :
    ∀ (y : Line), (∀ c ∈ st, isSpTabC c = true) →
      (st ++ y).dropWhile isPyWsC = y.dropWhile isPyWsC := by
  induction st with
  | nil => intro y _; rfl
  | cons c cs ih =>
    intro y h
    have hc := h c (by simp)
    have hpy : isPyWsC c = true := by
      rcases Bool.or_eq_true _ _ |>.mp hc with h1 | h1 <;>
        simp [isPyWsC, h1]
    rw [List.cons_append, List.dropWhile_cons, if_pos (by simp [hpy])]
    exact ih y fun c0 hc0 => h c0 (by simp [hc0])

lemma gcs_decomp (l p rest : Line) (h : guidColonSplit l = some (p, rest)) :
    l = p ++ rest
    ∧ ∃ st w, p = st ++ w ∧ (∀ c ∈ st, isSpTabC c = true)
        ∧ lowL w = "guid:".data := by
  unfold guidColonSplit at h
  cases h1 : matchCI "guid:".data (l.dropWhile isSpTabC) with
  | none => rw [h1] at h; cases h
  | some r =>
    rw [h1] at h
    injection h with h2
    cases h2
    obtain ⟨w, hw1, hw2⟩ := matchCI_decomp _ _ _ h1
    have hglow : lowL "guid:".data = "guid:".data := by decide
    rw [hglow] at hw2
    have hlen : w.length = 5 := by
      have := congrArg List.length hw2
      simpa [lowL] using this
    have htake : (l.dropWhile isSpTabC).take 5 = w := by
      rw [hw1, ← hlen, List.take_left]
    constructor
    · rw [htake]
      conv_lhs => rw [← List.takeWhile_append_dropWhile (p := isSpTabC) (l := l)]
      rw [hw1, List.append_assoc]
    · exact ⟨l.takeWhile isSpTabC, w, by rw [htake],
        fun c hc => List.mem_takeWhile_imp hc, hw2⟩

lemma lowChar_sptab (c : Char) (h : isSpTabC c = true) : lowChar c = c := by
  rcases Bool.or_eq_true _ _ |>.mp h with h1 | h1
  · have hc : c = ' ' := by simpa using h1
    subst hc; decide
  · have hc : c = '\t' := by simpa using h1
    subst hc; decide

lemma not_sptab_of_lowChar_g (c : Char) (h : lowChar c = 'g') :
    isSpTabC c = false := by
  cases hb : isSpTabC c
  · rfl
  · rw [lowChar_sptab c hb] at h
    subst h
    cases hb

lemma not_pyws_of_lowChar_g (c : Char) (h : lowChar c = 'g') :
    isPyWsC c = false := by
  cases hb : isPyWsC c
  · rfl
  · exfalso
    have hc : ((((c = ' ' ∨ c = '\t') ∨ c = '\n') ∨ c = '\x0d') ∨ c = '\x0b')
        ∨ c = '\x0c' := by
      simpa [isPyWsC] using hb
    rcases hc with ((((rfl | rfl) | rfl) | rfl) | rfl) | rfl <;> cases h

lemma guid_w_shape (w : Line) (hw : lowL w = "guid:".data) :
    ∃ c1 w4, w = c1 :: w4 ∧ lowChar c1 = 'g' := by
  cases w with
  | nil => simp [lowL] at hw
  | cons c1 w4 =>
    simp only [lowL, List.map_cons] at hw
    exact ⟨c1, w4, rfl, by injection hw⟩

lemma matchCI_guid_of_w (w : Line) (hw : lowL w = "guid:".data) (t : Line) :
    matchCI "guid".data (w ++ t) = some (w.drop 4 ++ t) := by
  have h4 : lowL (w.take 4) = lowL "guid".data := by
    have : lowL (w.take 4) = (lowL w).take 4 := by
      simp [lowL, List.map_take]
    rw [this, hw]
    decide
  have he : w ++ t = w.take 4 ++ (w.drop 4 ++ t) := by
    rw [← List.append_assoc, List.take_append_drop]
  rw [he]
  exact matchCI_of_lowL _ _ _ h4

lemma namePre_none_of_head (l : Line) (c : Char) (t : Line)
    (hd : l.dropWhile isSpTabC = c :: t) (hc : ¬c = '-') :
    nameLinePre l = none := by
  unfold nameLinePre
  rw [hd]
  split
  · next b heq =>
    exfalso
    apply hc
    injection heq with h1 h2
  · rfl

lemma gcs_line_facts (l p rest : Line) (h : guidColonSplit l = some (p, rest)) :
    ∀ t : Line, nameLinePre (p ++ t) = none
      ∧ (p ++ t).dropWhile isPyWsC ≠ []
      ∧ (matchCI "guid".data ((p ++ t).dropWhile isPyWsC)).isSome = true := by
  obtain ⟨-, st, w, rfl, hst, hw⟩ := gcs_decomp l p rest h
  obtain ⟨c1, w4, rfl, hc1⟩ := guid_w_shape w hw
  intro t
  have hdst : ((st ++ c1 :: w4) ++ t).dropWhile isSpTabC = c1 :: (w4 ++ t) := by
    rw [List.append_assoc, sptab_dropWhile_append st _ hst, List.cons_append,
      List.dropWhile_cons, if_neg (by simp [not_sptab_of_lowChar_g c1 hc1])]
  have hdpy : ((st ++ c1 :: w4) ++ t).dropWhile isPyWsC = c1 :: (w4 ++ t) := by
    rw [List.append_assoc, sptab_dropWhile_pyws_append st _ hst, List.cons_append,
      List.dropWhile_cons, if_neg (by simp [not_pyws_of_lowChar_g c1 hc1])]
  refine ⟨?_, ?_, ?_⟩
  · refine namePre_none_of_head _ _ _ hdst ?_
    intro hc
    rw [hc] at hc1
    cases hc1
  · rw [hdpy]
    simp
  · rw [hdpy]
    have := matchCI_guid_of_w (c1 :: w4) hw t
    rw [List.cons_append] at this
    rw [this]
    rfl

lemma gcs_resplit (l p rest : Line) (h : guidColonSplit l = some (p, rest))
    (g : Line) : guidColonSplit (p ++ ' ' :: g) = some (p, ' ' :: g) := by
  obtain ⟨-, st, w, rfl, hst, hw⟩ := gcs_decomp l p rest h
  obtain ⟨c1, w4, hww, hc1⟩ := guid_w_shape w hw
  have hlen : w.length = 5 := by
    have := congrArg List.length hw
    simpa [lowL] using this
  unfold guidColonSplit
  have hdrop : ((st ++ w) ++ ' ' :: g).dropWhile isSpTabC = w ++ ' ' :: g := by
    rw [List.append_assoc, sptab_dropWhile_append st _ hst, hww, List.cons_append,
      List.dropWhile_cons, if_neg (by simp [not_sptab_of_lowChar_g c1 hc1]),
      ← List.cons_append, ← hww]
  have htakew : ((st ++ w) ++ ' ' :: g).takeWhile isSpTabC = st := by
    rw [List.append_assoc, sptab_takeWhile_append st _ hst, hww, List.cons_append,
      List.takeWhile_cons, if_neg (by simp [not_sptab_of_lowChar_g c1 hc1]),
      List.append_nil]
  rw [hdrop, matchCI_of_lowL _ _ _ (by rw [hw]; decide), htakew]
  rw [← hlen, List.take_left]

lemma v7After_space (g : Line) : v7After (' ' :: g) = v7After g := by
  unfold v7After
  rw [List.dropWhile_cons, if_pos (by simp [isSpTabC])]

lemma namePre_decomp (l q : Line) (h : nameLinePre l = some q) :
    ∃ b, l.dropWhile isSpTabC = '-' :: b
      ∧ q = l.takeWhile isSpTabC ++ '-' :: b.takeWhile isSpTabC := by
  unfold nameLinePre at h
  split at h
  · next b heq =>
    split at h
    · injection h with h1
      exact ⟨b, heq, h1.symm⟩
    · cases h
  · cases h

lemma nameline_head_facts (l q : Line) (h : nameLinePre l = some q) :
    l.dropWhile isPyWsC ≠ []
    ∧ (matchCI "guid".data (l.dropWhile isPyWsC)).isSome = false := by
  obtain ⟨b, hd, -⟩ := namePre_decomp l q h
  have hpy : l.dropWhile isPyWsC = '-' :: b := by
    conv_lhs => rw [← List.takeWhile_append_dropWhile (p := isSpTabC) (l := l)]
    rw [sptab_dropWhile_pyws_append _ _ fun c hc => List.mem_takeWhile_imp hc, hd,
      List.dropWhile_cons, if_neg (by decide)]
  rw [hpy]
  refine ⟨by simp, ?_⟩
  rw [show ("guid".data : List Char) = 'g' :: "uid".data from rfl, matchCI,
    if_neg (by decide)]
  rfl

lemma guidFollows_cons_blank (l : Line) (X : List Line)
    (hb : l.dropWhile isPyWsC = []) : guidFollows (l :: X) = guidFollows X := by
  rw [guidFollows]
  simp [hb]

lemma guidFollows_cons_nonblank (l : Line) (X : List Line)
    (hb : l.dropWhile isPyWsC ≠ []) :
    guidFollows (l :: X) = (matchCI "guid".data (l.dropWhile isPyWsC)).isSome := by
  rw [guidFollows]
  simp only []
  rw [if_neg (by simpa [List.isEmpty_iff] using hb)]

lemma dashToSpace_q_sptab (l q : Line) (h : nameLinePre l = some q) :
    ∀ c ∈ dashToSpace q, isSpTabC c = true := by
  obtain ⟨b, -, rfl⟩ := namePre_decomp l q h
  intro c hc
  obtain ⟨c0, hc0, rfl⟩ := List.mem_map.mp hc
  rcases List.mem_append.mp hc0 with h1 | h1
  · have hst := List.mem_takeWhile_imp h1
    by_cases hdd : c0 = '-'
    · rw [if_pos hdd]; decide
    · rw [if_neg hdd]; exact hst
  · rcases List.mem_cons.mp h1 with rfl | h2
    · decide
    · have hst := List.mem_takeWhile_imp h2
      by_cases hdd : c0 = '-'
      · rw [if_pos hdd]; decide
      · rw [if_neg hdd]; exact hst

lemma gline_namePre (l q : Line) (h : nameLinePre l = some q) :
    nameLinePre (dashToSpace q ++ "guid:".data) = none := by
  have hd : (dashToSpace q ++ "guid:".data).dropWhile isSpTabC = "guid:".data := by
    rw [sptab_dropWhile_append _ _ (dashToSpace_q_sptab l q h)]
    decide
  exact namePre_none_of_head _ 'g' "uid:".data hd (by decide)

lemma gline_follows (l q : Line) (h : nameLinePre l = some q) (X : List Line) :
    guidFollows ((dashToSpace q ++ "guid:".data) :: X) = true := by
  have hd : (dashToSpace q ++ "guid:".data).dropWhile isPyWsC = "guid:".data := by
    rw [sptab_dropWhile_pyws_append _ _ (dashToSpace_q_sptab l q h)]
    decide
  rw [guidFollows_cons_nonblank _ _ (by rw [hd]; simp), hd]
  decide

lemma guidFollows_insert (ls : List Line) :
    guidFollows (insertGuidLines ls) = guidFollows ls := by
  induction ls with
  | nil => rfl
  | cons l ls ih =>
    cases hn : nameLinePre l with
    | none =>
      simp only [insertGuidLines, hn]
      by_cases hb : l.dropWhile isPyWsC = []
      · rw [guidFollows_cons_blank _ _ hb, guidFollows_cons_blank _ _ hb, ih]
      · rw [guidFollows_cons_nonblank _ _ hb, guidFollows_cons_nonblank _ _ hb]
    | some q =>
      simp only [insertGuidLines, hn]
      have hnb := (nameline_head_facts l q hn).1
      by_cases hf : guidFollows ls = true
      · rw [if_pos hf, guidFollows_cons_nonblank _ _ hnb,
          guidFollows_cons_nonblank _ _ hnb]
      · rw [if_neg hf, guidFollows_cons_nonblank _ _ hnb,
          guidFollows_cons_nonblank _ _ hnb]

lemma insert_nameOk (ls : List Line) : nameOkB (insertGuidLines ls) = true := by
  induction ls with
  | nil => rfl
  | cons l ls ih =>
    cases hn : nameLinePre l with
    | none =>
      simp only [insertGuidLines, hn]
      rw [nameOkB]
      simp [hn, ih]
    | some q =>
      simp only [insertGuidLines, hn]
      by_cases hf : guidFollows ls = true
      · rw [if_pos hf, nameOkB]
        simp [hn, guidFollows_insert, hf, ih]
      · rw [if_neg hf, nameOkB, nameOkB]
        simp [hn, gline_follows l q hn, gline_namePre l q hn, ih]

lemma insert_id (ls : List Line) (h : nameOkB ls = true) :
    insertGuidLines ls = ls := by
  induction ls with
  | nil => rfl
  | cons l ls ih =>
    rw [nameOkB, Bool.and_eq_true] at h
    cases hn : nameLinePre l with
    | none => simp only [insertGuidLines, hn]; rw [ih h.2]
    | some q =>
      simp only [insertGuidLines, hn]
      have hf : guidFollows ls = true := by
        have h1 := h.1
        rw [hn, Bool.or_eq_true] at h1
        rcases h1 with h1 | h1
        · simp at h1
        · exact h1
      rw [if_pos hf, ih h.2]

lemma fill_id (ls : List Line) :
    ∀ (seen sup : List Line), guidOkB ls = true →
      fillGuids seen sup ls = some (ls, seen, sup, []) := by
  induction ls with
  | nil => intro seen sup _; rfl
  | cons l ls ih =>
    intro seen sup h
    rw [guidOkB, List.all_cons, Bool.and_eq_true] at h
    rw [fillGuids]
    cases hsplit : guidColonSplit l with
    | none => simp [hsplit, ih seen sup h.2]
    | some pr =>
      have hv : v7After pr.2 = true := by
        have h1 := h.1
        rw [hsplit] at h1
        exact h1
      simp [hsplit, hv, ih seen sup h.2]

lemma fillrel_guidFollows (sup : List Line) :
    ∀ (ls out : List Line), List.Forall₂ (FillRel sup) ls out →
      guidFollows out = guidFollows ls := by
  intro ls out h
  induction h with
  | nil => rfl
  | @cons a b l1 l2 hrel htail ih =>
    cases hrel with
    | keep hk =>
      by_cases hb : a.dropWhile isPyWsC = []
      · rw [guidFollows_cons_blank _ _ hb, guidFollows_cons_blank _ _ hb, ih]
      · rw [guidFollows_cons_nonblank _ _ hb, guidFollows_cons_nonblank _ _ hb]
    | repl p rest g hsp hv hg =>
      have hl : a = p ++ rest := (gcs_decomp a p rest hsp).1
      obtain ⟨-, hne1, hm1⟩ := gcs_line_facts a p rest hsp rest
      obtain ⟨-, hne2, hm2⟩ := gcs_line_facts a p rest hsp (' ' :: g)
      rw [guidFollows_cons_nonblank _ _ hne2, hm2, hl,
        guidFollows_cons_nonblank _ _ hne1, hm1]

lemma fillrel_nameOk (sup : List Line) :
    ∀ (ls out : List Line), List.Forall₂ (FillRel sup) ls out →
      nameOkB out = nameOkB ls := by
  intro ls out h
  induction h with
  | nil => rfl
  | @cons a b l1 l2 hrel htail ih =>
    have hgf := fillrel_guidFollows sup _ _ htail
    cases hrel with
    | keep hk => rw [nameOkB, nameOkB, ih, hgf]
    | repl p rest g hsp hv hg =>
      have hl : a = p ++ rest := (gcs_decomp a p rest hsp).1
      obtain ⟨hnp2, -, -⟩ := gcs_line_facts a p rest hsp (' ' :: g)
      obtain ⟨hnp1, -, -⟩ := gcs_line_facts a p rest hsp rest
      rw [nameOkB, nameOkB, ih, hgf, hnp2, hl, hnp1]

lemma fillrel_guidOk (sup : List Line) (hsup : ∀ g ∈ sup, v7After g = true) :
    ∀ (ls out : List Line), List.Forall₂ (FillRel sup) ls out →
      guidOkB out = true := by
  intro ls out h
  induction h with
  | nil => rfl
  | @cons a b l1 l2 hrel htail ih =>
    rw [guidOkB, List.all_cons, Bool.and_eq_true]
    rw [guidOkB] at ih
    refine ⟨?_, ih⟩
    cases hrel with
    | keep hk =>
      cases hs : guidColonSplit a with
      | none => simp [hs]
      | some pr => simp [hs, hk pr.1 pr.2 (by rw [hs])]
    | repl p rest g hsp hv hg =>
      have hrs := gcs_resplit a p rest hsp g
      simp [hrs, v7After_space, hsup g hg]

lemma generate_valid_out (lines seen supply out : List Line) (m : Bool)
    (s1 sup1 gens : List Line)
    (hsup : ∀ g ∈ supply, v7After g = true)
    (h : generateGuidsForYaml lines seen supply = some (out, m, s1, sup1, gens)) :
    everyEntryCarriesValidGuid out = true := by
  unfold generateGuidsForYaml at h
  cases hfill : fillGuids (seedSeen lines seen) supply (insertGuidLines lines) with
  | none => rw [hfill] at h; cases h
  | some r =>
    obtain ⟨out0, s10, sup10, gens0⟩ := r
    rw [hfill] at h
    injection h with h1
    cases h1
    obtain ⟨-, -, -, -, -, hrel⟩ := fillGuids_spec _ _ _ _ _ _ _ hfill
    unfold everyEntryCarriesValidGuid
    rw [Bool.and_eq_true]
    exact ⟨by rw [fillrel_nameOk _ _ _ hrel, insert_nameOk],
      fillrel_guidOk _ hsup _ _ hrel⟩

lemma generate_on_valid (lines seen supply : List Line)
    (h : everyEntryCarriesValidGuid lines = true) :
    generateGuidsForYaml lines seen supply =
      some (lines, false, seedSeen lines seen, supply, []) := by
  unfold everyEntryCarriesValidGuid at h
  rw [Bool.and_eq_true] at h
  unfold generateGuidsForYaml
  rw [insert_id lines h.1, fill_id lines _ _ h.2]
  simp

lemma run_valid_files :
    ∀ (files : List (List Line)) (seen supply : List Line)
      (files1 : List (List Line)) (n : Nat) (s2 sup2 : List Line)
      (gl : List (List Line)),
      (∀ g ∈ supply, v7After g = true) →
      addGuidsRunAux seen supply files = some (files1, n, s2, sup2, gl) →
      ∀ f1 ∈ files1, everyEntryCarriesValidGuid f1 = true := by
  intro files
  induction files with
  | nil =>
    intro seen supply files1 n s2 sup2 gl _ h f1 hf1
    rw [addGuidsRunAux] at h
    injection h with h1
    cases h1
    cases hf1
  | cons f fs ih =>
    intro seen supply files1 n s2 sup2 gl hsup h f1 hf1
    rw [addGuidsRunAux] at h
    cases hgen : generateGuidsForYaml f seen supply with
    | none => rw [hgen] at h; cases h
    | some r =>
      obtain ⟨f2, m, s1, sup1, gens⟩ := r
      simp only [hgen] at h
      cases hrec : addGuidsRunAux s1 sup1 fs with
      | none => simp only [hrec] at h; cases h
      | some r2 =>
        obtain ⟨fs1, n1, s2x, sup2x, gl1⟩ := r2
        simp only [hrec] at h
        injection h with h1
        cases h1
        have hsup1 : ∀ g ∈ sup1, v7After g = true := by
          intro g hg
          exact hsup g ((generate_spec _ _ _ _ _ _ _ _ hgen).2.2.2.2.1 g hg)
        rcases List.mem_cons.mp hf1 with rfl | hf2
        · exact generate_valid_out _ _ _ _ _ _ _ _ hsup hgen
        · exact ih _ _ _ _ _ _ _ hsup1 hrec f1 hf2

lemma run_on_valid :
    ∀ (files1 : List (List Line)),
      (∀ f ∈ files1, everyEntryCarriesValidGuid f = true) →
      ∀ (seen2 sup2 : List Line),
        addGuidsRunAux seen2 sup2 files1 =
          some (files1, 0, files1.foldl (fun s f => seedSeen f s) seen2, sup2,
            List.replicate files1.length []) := by
  intro files1
  induction files1 with
  | nil => intro _ seen2 sup2; rfl
  | cons f fs ih =>
    intro hv seen2 sup2
    rw [addGuidsRunAux]
    simp only [generate_on_valid f seen2 sup2 (hv f (List.mem_cons_self _ _)),
      ih (fun f0 h0 => hv f0 (List.mem_cons_of_mem _ h0)) (seedSeen f seen2) sup2]
    simp [List.replicate]

/-! ### Claim C5 -/

/-- C5: the Identifier Assigner is idempotent.  First part: on a file in
which every test entry already carries a structurally valid version-7
shaped identifier (each `- name:` line is followed by its `guid` field
and each `guid:` field holds a version-7 shaped value), the assigner
returns the input byte-for-byte with the modified flag false.  Second
part: after any corpus run whose generator produces version-7 shaped
identifiers (as `uuid7()` does), a second run over the rewritten corpus
returns every file unchanged, reports zero files updated and generates
no identifiers. -/
theorem C5_idempotence :
    (∀ (lines seen supply : List Line),
      everyEntryCarriesValidGuid lines = true →
      generateGuidsForYaml lines seen supply =
        some (lines, false, seedSeen lines seen, supply, []))
    ∧ (∀ (files : List (List Line)) (supply : List Line)
        (files1 : List (List Line)) (n : Nat) (s2 sup2 : List Line)
        (gl : List (List Line)),
        (∀ g ∈ supply, v7After g = true) →
        addGuidsToYamlFiles files supply = some (files1, n, s2, sup2, gl) →
        ∀ supply2 : List Line,
          addGuidsToYamlFiles files1 supply2 =
            some (files1, 0, files1.foldl (fun s f => seedSeen f s) [], supply2,
              List.replicate files1.length [])) := by
  refine ⟨generate_on_valid, ?_⟩
  intro files supply files1 n s2 sup2 gl hsup h supply2
  exact run_on_valid files1
    (run_valid_files files [] supply files1 n s2 sup2 gl hsup h) [] supply2

/-- Witness for C5: a fully-valid file is returned unchanged, and a
second corpus run after an assigning run changes nothing. -/
theorem C5_idempotence_witness :
    generateGuidsForYaml
        ["- name: a".data, "  guid: 00112233-4455-7677-8899-aabbccddeeff".data]
        [] [] =
      some (["- name: a".data,
             "  guid: 00112233-4455-7677-8899-aabbccddeeff".data], false,
        ["00112233-4455-7677-8899-aabbccddeeff".data], [], [])
    ∧ addGuidsToYamlFiles
        [["- name: a".data, "  guid: 00112233-4455-7677-8899-aabbccddeeff".data]]
        [] =
      some ([["- name: a".data,
              "  guid: 00112233-4455-7677-8899-aabbccddeeff".data]], 0,
        ["00112233-4455-7677-8899-aabbccddeeff".data], [], [[]]) :=
  ⟨C5_idempotence.1
      ["- name: a".data, "  guid: 00112233-4455-7677-8899-aabbccddeeff".data]
      [] [] (by decide),
   C5_idempotence.2
      [["- name: a".data, "  guid:".data]]
      ["00112233-4455-7677-8899-aabbccddeeff".data]
      [["- name: a".data, "  guid: 00112233-4455-7677-8899-aabbccddeeff".data]]
      1 ["00112233-4455-7677-8899-aabbccddeeff".data] []
      [["00112233-4455-7677-8899-aabbccddeeff".data]]
      (by decide) (by rfl) []⟩
